import Mathlib

/-!
CybrosX: template item collection and response normalisation.

A shallow embedding of two pieces of the front end:

* `static/js/task/directives/task.directive.js`: `retrieveItems` and
  `retrieveItemsSameTask`, which turn a template's question list and one or
  two workers' result records into the list shown in peer review;
* `static/js/template/controllers/template.controller.js`: the item list of
  the template editor with `select`, `deselect`, `copy`, `removeItem`,
  `resetItemPosition` and `addComponent`.

JavaScript objects that are shared and mutated (template items) live in an
explicit heap and are named by references; values that are only read are
plain records.  A `TypeError` thrown by the source is an explicit outcome.
-/

namespace CybrosX

/-! ## Values read by the task directive -/

/-- One entry of a checkbox result: the option text and whether it was ticked. -/
structure Flag where
  value : String
  answer : Bool
deriving DecidableEq, Repr

/-- The `result` field of one stored answer.  A text, radio or select answer
is a string, a slider answer a number, a checkbox answer an array of flags;
`null` stands for `null` and `undefined`. -/
inductive ResultValue where
  | str (s : String)
  | num (n : Int)
  | flags (fs : List Flag)
  | null
deriving DecidableEq, Repr

/-- An integer that a JS number holds exactly, `|val| ≤ 2^53 - 1`: for such a
number `toString()` gives the decimal digits, with a minus sign when negative. -/
structure SafeInteger where
  val : Int
  isSafe : val.natAbs ≤ 9007199254740991
deriving DecidableEq, Repr

/-- A slider bound, as far as the code looks at it: it only calls
`toString()` on it.  A safe integer is kept as a number; every other value (a
fraction, a number printed with an exponent, a string) is given by the text
that `toString()` returns for it. -/
inductive Bound where
  | int (n : SafeInteger)
  | other (text : String)
deriving DecidableEq, Repr

/-- The text `b.toString()`. -/
def Bound.text : Bound → String
  | .int n => toString n.val
  | .other text => text

/-- The part of `aux_attributes` that the code reads.  `question` is
`aux_attributes.question.value`; it is `none` when `aux_attributes.question`
is missing, in which case reading `.value` throws.  `options`, `min`, `max`
are `none` when the property is `undefined` or `null`; calling `toString()`
on such a bound throws. -/
structure AuxAttributes where
  question : Option String := none
  options : Option (List String) := none
  min : Option Bound := none
  max : Option Bound := none
deriving DecidableEq, Repr

/-- A template item (a question or widget).  `isSelected` and `isNew` are
`none` when the object has no such own property; `id` is `none` until the
store has assigned one. -/
structure Item where
  id : Option Nat := none
  type : String
  name : String := ""
  required : Bool := false
  position : Int := 0
  aux_attributes : AuxAttributes := {}
  isSelected : Option Bool := none
  isNew : Option Bool := none
  template : Option Nat := none
deriving DecidableEq, Repr

/-- One element of `task_worker[0].results`. -/
structure TaskWorkerResult where
  result : ResultValue
deriving DecidableEq, Repr

/-- One element of the array that `TaskWorker.getTaskWorker` resolves to. -/
structure TaskWorker where
  results : List TaskWorkerResult
deriving DecidableEq, Repr

/-- The object literal pushed by `retrieveItems`.  A field is `none` when the
literal of that branch does not have it (or its value is `undefined`). -/
structure ReviewItem where
  question : String
  type : String
  options : Option (List String) := none
  range : Option String := none
  task_worker_answer : Option ResultValue := none
deriving DecidableEq, Repr

/-- The object literal pushed by `retrieveItemsSameTask`. -/
structure ReviewItemSameTask where
  question : String
  type : String
  options : Option (List String) := none
  range : Option String := none
  task_worker_one_answer : Option ResultValue := none
  task_worker_two_answer : Option ResultValue := none
deriving DecidableEq, Repr

/-- How a call of one of the two traversals ends: it returns a value, it
throws a `TypeError`, or it is still running when the step budget is used up. -/
inductive Outcome (α : Type) where
  | returned (v : α)
  | typeError
  | running
deriving DecidableEq, Repr

/-- The number of UTF-16 code units of a string: the `.length` of a JS string. -/
def utf16Length (s : String) : Nat :=
  s.data.foldl (fun n c => n + (if c.val.toNat < 65536 then 1 else 2)) 0

/-- The value of `a.length` in JS: `none` when reading it throws (`null`),
`some none` when it is `undefined` (a number). -/
def jsLength : ResultValue → Option (Option Nat)
  | .str s => some (some (utf16Length s))
  | .num _ => some none
  | .flags fs => some (some fs.length)
  | .null => none

/-- The test `a[i].answer === true`.  `none` when it throws: `a` is `null`, or
`a[i]` is `undefined`.  An element of a string is a string, whose `.answer`
is `undefined`. -/
def answerIsTrue (a : ResultValue) (i : Nat) : Option Bool :=
  match a with
  | .flags fs => (fs[i]?).map (fun f => f.answer)
  | .str s => if i < utf16Length s then some false else none
  | .num _ => none
  | .null => none

/-- The text that string concatenation appends for `a[i].value`.  `none` when
reading it throws; the `.value` of a string element is `undefined`. -/
def valueText (a : ResultValue) (i : Nat) : Option String :=
  match a with
  | .flags fs => (fs[i]?).map (fun f => f.value)
  | .str s => if i < utf16Length s then some "undefined" else none
  | .num _ => none
  | .null => none

/-- The expression `task_worker[0].results[index].result`; `none` when it throws. -/
def resultAt (task_worker : List TaskWorker) (index : Nat) : Option ResultValue :=
  match task_worker[0]? with
  | none => none
  | some tw =>
    match tw.results[index]? with
    | none => none
    | some r => some r.result

/-- Is the type one of the four that carry no answer? -/
def isDisplayType (t : String) : Bool :=
  t = "instructions" || t = "image" || t = "audio" || t = "iframe"

/-- Is the type one of the five answer-consuming ones? -/
def isAnswerType (t : String) : Bool :=
  t = "radio" || t = "select_list" || t = "checkbox" || t = "text" || t = "slider"

/-- The slider's `range`: `min.toString().concat(" - ").concat(max.toString())`. -/
def sliderRange (aux : AuxAttributes) : Option String :=
  match aux.min, aux.max with
  | some lo, some hi => some ((lo.text ++ " - ") ++ hi.text)
  | _, _ => none

/-! ## `retrieveItems` -/

/-- The inner loop of the checkbox branch of `retrieveItems`,
`for (var i = 0; i < task_worker_answers.length; i++)`, run from index `i`
for `n` more rounds.  Returns the final `answer`, or `none` on a throw. -/
def checkboxLoop (answers : ResultValue) : Nat → Nat → String → Option String
  | 0, _, answer => some answer
  | n + 1, i, answer =>
    match answerIsTrue answers i with
    | none => none
    | some true =>
      match valueText answers i with
      | none => none
      | some v =>
        if i = 0 then checkboxLoop answers n (i + 1) (answer ++ v)
        else checkboxLoop answers n (i + 1) (answer ++ (", " ++ v))
    | some false => checkboxLoop answers n (i + 1) answer

/-- The variables of the traversal: the loop variable `i` (shared with the
inner checkbox loop, both are the one function-scoped `var i`), the answer
index `index`, and the list built so far. -/
structure LoopState (α : Type) where
  i : Nat
  index : Nat
  items : List α
deriving DecidableEq, Repr

/-- One pass through the body of the `for` loop of `retrieveItems` at
`question = questions[i]`, up to but not including the `i++`.  `none` when
the body throws. -/
def retrieveItemsBody (question : Item) (task_worker : List TaskWorker)
    (st : LoopState ReviewItem) : Option (LoopState ReviewItem) :=
  if isDisplayType question.type then
    match question.aux_attributes.question with
    | none => none
    | some q =>
      some { st with items := st.items ++ [{ question := q, type := question.type }],
                     index := st.index + 1 }
  else if question.type = "radio" ∨ question.type = "select_list" then
    match question.aux_attributes.question, resultAt task_worker st.index with
    | some q, some r =>
      some { st with items := st.items ++ [{ question := q, type := question.type,
                                             options := question.aux_attributes.options,
                                             task_worker_answer := some r }] }
    | _, _ => none
  else if question.type = "checkbox" then
    match resultAt task_worker st.index with
    | none => none
    | some answers =>
      match jsLength answers with
      | none => none
      | some len =>
        -- a test `i < undefined` is false: no round is run
        let n := len.getD 0
        match checkboxLoop answers n 0 "" with
        | none => none
        | some answer =>
          match question.aux_attributes.question with
          | none => none
          | some q =>
            some { i := n, index := st.index,
                   items := st.items ++ [{ question := q, type := question.type,
                                           options := question.aux_attributes.options,
                                           task_worker_answer := some (.str answer) }] }
  else if question.type = "text" then
    match question.aux_attributes.question, resultAt task_worker st.index with
    | some q, some r =>
      some { st with items := st.items ++ [{ question := q, type := question.type,
                                             task_worker_answer := some r }] }
    | _, _ => none
  else if question.type = "slider" then
    match sliderRange question.aux_attributes, question.aux_attributes.question,
          resultAt task_worker st.index with
    | some range, some q, some r =>
      some { st with items := st.items ++ [{ question := q, type := question.type,
                                             range := some range,
                                             task_worker_answer := some r }] }
    | _, _, _ => none
  else some st

/-- The `for` loop of `retrieveItems`, with a budget of loop tests. -/
def retrieveItemsLoop (questions : List Item) (task_worker : List TaskWorker) :
    Nat → LoopState ReviewItem → Outcome (List ReviewItem)
  | 0, _ => .running
  | fuel + 1, st =>
    match questions[st.i]? with
    | none => .returned st.items
    | some question =>
      match retrieveItemsBody question task_worker st with
      | none => .typeError
      | some st1 => retrieveItemsLoop questions task_worker fuel { st1 with i := st1.i + 1 }

/-- The function `retrieveItems(questions, task_worker)`. -/
def retrieveItems (fuel : Nat) (questions : List Item) (task_worker : List TaskWorker) :
    Outcome (List ReviewItem) :=
  retrieveItemsLoop questions task_worker fuel { i := 0, index := 0, items := [] }

/-! ## `retrieveItemsSameTask` -/

/-- The inner loop of the checkbox branch of `retrieveItemsSameTask`,
`for (var i = 0; i < task_worker_one_answers.length; i++)`, run from index `i`
for `n` more rounds.  Returns `(answer_one, answer_two)`, or `none` on a
throw.  As in the source, the bound is worker one's length and the text
appended to `answer_two` at a non-zero index is worker one's value. -/
def checkboxLoopSameTask (one two : ResultValue) :
    Nat → Nat → String → String → Option (String × String)
  | 0, _, answer_one, answer_two => some (answer_one, answer_two)
  | n + 1, i, answer_one, answer_two =>
    let one1 : Option String :=
      match answerIsTrue one i with
      | none => none
      | some true =>
        match valueText one i with
        | none => none
        | some v => if i = 0 then some (answer_one ++ v) else some (answer_one ++ (", " ++ v))
      | some false => some answer_one
    match one1 with
    | none => none
    | some a1 =>
      let two1 : Option String :=
        match answerIsTrue two i with
        | none => none
        | some true =>
          if i = 0 then
            match valueText two i with
            | none => none
            | some v => some (answer_two ++ v)
          else
            match valueText one i with
            | none => none
            | some v => some (answer_two ++ (", " ++ v))
        | some false => some answer_two
      match two1 with
      | none => none
      | some a2 => checkboxLoopSameTask one two n (i + 1) a1 a2

/-- One pass through the body of the `for` loop of `retrieveItemsSameTask`,
up to but not including the `i++`.  `none` when the body throws. -/
def retrieveItemsSameTaskBody (question : Item)
    (task_worker_one task_worker_two : List TaskWorker)
    (st : LoopState ReviewItemSameTask) : Option (LoopState ReviewItemSameTask) :=
  if isDisplayType question.type then
    match question.aux_attributes.question with
    | none => none
    | some q =>
      some { st with items := st.items ++ [{ question := q, type := question.type }],
                     index := st.index + 1 }
  else if question.type = "radio" ∨ question.type = "select_list" then
    match question.aux_attributes.question, resultAt task_worker_one st.index,
          resultAt task_worker_two st.index with
    | some q, some r1, some r2 =>
      some { st with items := st.items ++ [{ question := q, type := question.type,
                                             options := question.aux_attributes.options,
                                             task_worker_one_answer := some r1,
                                             task_worker_two_answer := some r2 }] }
    | _, _, _ => none
  else if question.type = "checkbox" then
    match resultAt task_worker_one st.index, resultAt task_worker_two st.index with
    | some one, some two =>
      match jsLength one with
      | none => none
      | some len =>
        -- a test `i < undefined` is false: no round is run
        let n := len.getD 0
        match checkboxLoopSameTask one two n 0 "" "" with
        | none => none
        | some (answer_one, answer_two) =>
          match question.aux_attributes.question with
          | none => none
          | some q =>
            some { i := n, index := st.index,
                   items := st.items ++ [{ question := q, type := question.type,
                                           options := question.aux_attributes.options,
                                           task_worker_one_answer := some (.str answer_one),
                                           task_worker_two_answer := some (.str answer_two) }] }
    | _, _ => none
  else if question.type = "text" then
    match question.aux_attributes.question, resultAt task_worker_one st.index,
          resultAt task_worker_two st.index with
    | some q, some r1, some r2 =>
      some { st with items := st.items ++ [{ question := q, type := question.type,
                                             task_worker_one_answer := some r1,
                                             task_worker_two_answer := some r2 }] }
    | _, _, _ => none
  else if question.type = "slider" then
    match sliderRange question.aux_attributes, question.aux_attributes.question,
          resultAt task_worker_one st.index, resultAt task_worker_two st.index with
    | some range, some q, some r1, some r2 =>
      some { st with items := st.items ++ [{ question := q, type := question.type,
                                             range := some range,
                                             task_worker_one_answer := some r1,
                                             task_worker_two_answer := some r2 }] }
    | _, _, _, _ => none
  else some st

/-- The `for` loop of `retrieveItemsSameTask`, with a budget of loop tests. -/
def retrieveItemsSameTaskLoop (questions : List Item)
    (task_worker_one task_worker_two : List TaskWorker) :
    Nat → LoopState ReviewItemSameTask → Outcome (List ReviewItemSameTask)
  | 0, _ => .running
  | fuel + 1, st =>
    match questions[st.i]? with
    | none => .returned st.items
    | some question =>
      match retrieveItemsSameTaskBody question task_worker_one task_worker_two st with
      | none => .typeError
      | some st1 =>
        retrieveItemsSameTaskLoop questions task_worker_one task_worker_two fuel
          { st1 with i := st1.i + 1 }

/-- The function `retrieveItemsSameTask(questions, task_worker_one, task_worker_two)`. -/
def retrieveItemsSameTask (fuel : Nat) (questions : List Item)
    (task_worker_one task_worker_two : List TaskWorker) :
    Outcome (List ReviewItemSameTask) :=
  retrieveItemsSameTaskLoop questions task_worker_one task_worker_two fuel
    { i := 0, index := 0, items := [] }

/-! ## The template controller -/

/-- A reference to a template item object: its index in the heap. -/
abbrev Ref := Nat

/-- The controller's state.  `heap` holds the item objects, `items` is
`self.items` (an array of references), `selectedItem` is `self.selectedItem`,
`projectSelectedItem` is `$scope.project.selectedItem`, `templateComponents`
the blueprints returned by `Template.getTemplateComponents`, `idGenIndex` the
counter of `generateId`, and `templateId` is
`$scope.project.project.template.id`. -/
structure State where
  heap : List Item
  items : List Ref
  selectedItem : Option Ref := none
  projectSelectedItem : Option Ref := none
  templateComponents : List Item := []
  idGenIndex : Nat := 0
  templateId : Nat := 0
deriving DecidableEq, Repr

/-- The answer of the backing store to `Template.addItem(field)`: the promise
is resolved with `response[0].id`, or rejected. -/
inductive StoreResponse where
  | success (id : Nat)
  | failure
deriving DecidableEq, Repr

/-- How a controller call ends: normally, or with a `TypeError`; either way
the state reached is recorded. -/
inductive Completion where
  | normal (s : State)
  | typeError (s : State)
deriving DecidableEq, Repr

/-- The state a call ended in. -/
def Completion.state : Completion → State
  | .normal s => s
  | .typeError s => s

/-- Assignment to the properties of the object `r`. -/
def heapUpdate (heap : List Item) (r : Ref) (f : Item → Item) : List Item :=
  heap.modify f r

/-- The array method `indexOf` on an array of references: the first index at
which `r` occurs, or `-1`. -/
def indexOf (xs : List Ref) (r : Ref) : Int :=
  if r ∈ xs then (xs.indexOf r : Int) else -1

/-- The index at which `splice(start, ...)` operates on an array of length
`len`: a negative `start` counts from the end, and the result is clamped to
`0..len`. -/
def spliceStart (len : Nat) (start : Int) : Nat :=
  if start < 0 then (len + start).toNat else min start.toNat len

/-- The array after `xs.splice(start, 1)`. -/
def spliceRemoveOne (xs : List Ref) (start : Int) : List Ref :=
  xs.take (spliceStart xs.length start) ++ xs.drop (spliceStart xs.length start + 1)

/-- The array after `xs.splice(start, 0, x)`. -/
def spliceInsert (xs : List Ref) (start : Int) (x : Ref) : List Ref :=
  xs.take (spliceStart xs.length start) ++ x :: xs.drop (spliceStart xs.length start)

/-- The loop of `resetItemPosition` over the rest `rest` of `self.items`,
which starts at index `i`: `self.items[i].position = i + 1`. -/
def resetItemPositionFrom : List Ref → Nat → List Item → List Item
  | [], _, heap => heap
  | r :: rest, i, heap =>
    resetItemPositionFrom rest (i + 1)
      (heapUpdate heap r (fun it => { it with position := (i : Int) + 1 }))

/-- The function `resetItemPosition()`. -/
def resetItemPosition (s : State) : State :=
  { s with heap := resetItemPositionFrom s.items 0 s.heap }

/-- The function `onSort()`. -/
def onSort (s : State) : State :=
  resetItemPosition s

/-- The heap after the statement, shared by `select` and `addComponent`,
`if (self.selectedItem && self.selectedItem.hasOwnProperty('isSelected'))
self.selectedItem.isSelected = false`. -/
def clearSelectedFlag (s : State) : List Item :=
  match s.selectedItem with
  | none => s.heap
  | some sel =>
    heapUpdate s.heap sel
      (fun it => if it.isSelected.isSome then { it with isSelected := some false } else it)

/-- The function `deselect(item)`. -/
def deselect (s : State) (item : Ref) : State :=
  let s1 := { s with projectSelectedItem := none }
  if s1.selectedItem = some item then
    { s1 with heap := heapUpdate s1.heap item (fun it => { it with isSelected := some false }),
              selectedItem := none }
  else s1

/-- The function `select(item)`. -/
def select (s : State) (item : Ref) : State :=
  let heap1 := clearSelectedFlag s
  { s with heap := heapUpdate heap1 item (fun it => { it with isSelected := some true }),
           selectedItem := some item }

/-- The object `field` of `addComponent` as it is handed to
`Template.addItem`: a copy of `component` with `name`, `isNew`, `template` and
`position` set. -/
def addComponentField (s : State) (component : Item) (copy : Bool) (index : Int) : Item :=
  { component with
    name := ""
    isNew := some true
    template := some s.templateId
    position := if !copy then (s.items.length : Int) + 1 else index + 1 }

/-- The function `addComponent(component, copy, index)`, together with the
store's answer to the `Template.addItem` call it makes.  On success the new
object is allocated at the reference `s.heap.length`. -/
def addComponent (s : State) (component : Item) (copy : Bool) (index : Int)
    (resp : StoreResponse) : State :=
  let heap1 := clearSelectedFlag s
  let s1 := { s with heap := heap1, idGenIndex := s.idGenIndex + 1 }
  let field := addComponentField s1 component copy index
  match resp with
  | .failure => s1
  | .success id =>
    let ref : Ref := s1.heap.length
    let s2 := { s1 with heap := s1.heap ++ [{ field with id := some id }] }
    if !copy then
      { s2 with items := s2.items ++ [ref], projectSelectedItem := some ref }
    else
      { resetItemPosition { s2 with items := spliceInsert s2.items (index + 1) ref } with
        projectSelectedItem := some ref }

/-- The function `copy(item)`, together with the store's answer.  Without a
blueprint of the item's type `_.find` gives `undefined` and the assignment
`field.name = ''` throws. -/
def copy (s : State) (item : Ref) (resp : StoreResponse) : Completion :=
  let s1 := deselect s item
  match s1.heap[item]? with
  | none => .typeError s1
  | some it =>
    match s1.templateComponents.find? (fun component => component.type == it.type) with
    | none => .typeError { s1 with idGenIndex := s1.idGenIndex + 1 }
    | some component =>
      let s2 := { s1 with idGenIndex := s1.idGenIndex + 1 }
      let field : Item :=
        { component with name := "", aux_attributes := it.aux_attributes,
                         required := it.required }
      .normal (addComponent s2 field true (indexOf s2.items item) resp)

/-- The function `removeItem(item)`.  The `Template.deleteItem` call it ends
with does not touch the controller's state. -/
def removeItem (s : State) (item : Ref) : State :=
  resetItemPosition
    { s with items := spliceRemoveOne s.items (indexOf s.items item), selectedItem := none }

/-- The `position` field of the object `r`, when `r` is allocated. -/
def positionOf (heap : List Item) (r : Ref) : Option Int :=
  (heap[r]?).map (fun it => it.position)

/-- The `position` fields of the listed items, in list order. -/
def positions (s : State) : List (Option Int) :=
  s.items.map (positionOf s.heap)

/-- An item without its transient `isSelected` flag. -/
def withoutSelection (it : Item) : Item :=
  { it with isSelected := none }

/-- The object `r` of the heap, its `isSelected` flag left out. -/
def objectOf (heap : List Item) (r : Ref) : Option Item :=
  (heap[r]?).map withoutSelection

/-- The positions of the listed items are exactly `1..N` in list order. -/
def densePositions (s : State) : Prop :=
  positions s = (List.range s.items.length).map (fun (i : Nat) => some ((i : Int) + 1))

instance (s : State) : Decidable (densePositions s) := by
  unfold densePositions; infer_instance

/-- Every reference held by the list is an allocated object. -/
def allocated (s : State) : Prop :=
  ∀ r ∈ s.items, r < s.heap.length

instance (s : State) : Decidable (allocated s) := by
  unfold allocated; infer_instance

/-! ## `setDataSource` -/

/-- Is the character matched by `\s` in a regular expression (the same set is
stripped by `trim`)? -/
def isJsSpace (c : Char) : Bool :=
  c.toNat = 9 || c.toNat = 10 || c.toNat = 11 || c.toNat = 12 || c.toNat = 13 ||
  c.toNat = 32 || c.toNat = 160 || c.toNat = 5760 ||
  (8192 ≤ c.toNat && c.toNat ≤ 8202) ||
  c.toNat = 8232 || c.toNat = 8233 || c.toNat = 8239 || c.toNat = 8287 ||
  c.toNat = 12288 || c.toNat = 65279

/-- The call `s.replace(/\s+/g, ' ')` on the characters of `s`: every run of
whitespace becomes one space.  `inRun` tells that the previous character was
whitespace. -/
def collapseSpaces : Bool → List Char → List Char
  | _, [] => []
  | inRun, c :: rest =>
    if isJsSpace c then
      if inRun then collapseSpaces true rest else ' ' :: collapseSpaces true rest
    else c :: collapseSpaces false rest

/-- The call `s.trim()` on the characters of `s`. -/
def trimSpaces (s : List Char) : List Char :=
  (s.dropWhile isJsSpace).rdropWhile isJsSpace

/-- The expression `s.replace(/\s+/g, ' ').trim()`. -/
def normalizeSpaces (s : String) : String :=
  String.mk (trimSpaces (collapseSpaces false s.data))

/-- The opening brace. -/
def lbrace : Char := Char.ofNat 123

/-- The closing brace. -/
def rbrace : Char := Char.ofNat 125

/-- A data source name without regular expression metacharacters: letters,
digits and underscores, at least one. -/
def isPlainName (name : List Char) : Bool :=
  !name.isEmpty && name.all (fun c => c.isAlphanum || c = Char.ofNat 95)

/-- Consume `n` copies of the character `c` at the start of `s`. -/
def expectChars (c : Char) : Nat → List Char → Option (List Char)
  | 0, s => some s
  | _ + 1, [] => none
  | n + 1, d :: rest => if d = c then expectChars c n rest else none

/-- Consume the characters of `name` at the start of `s`. -/
def expectName : List Char → List Char → Option (List Char)
  | [], s => some s
  | _ :: _, [] => none
  | a :: name, d :: rest => if d = a then expectName name rest else none

/-- A match at the start of `s` of the regular expression made of `braces`
opening braces, `\s*`, the data source name, `\s*` and `braces` closing
braces; the result is the text behind the match.  For a plain name the greedy
`\s*` never has to give back a character, so there is at most one match at a
given place. -/
def matchPlaceholder (braces : Nat) (name : List Char) (s : List Char) : Option (List Char) :=
  match expectChars lbrace braces s with
  | none => none
  | some s1 =>
    match expectName name (s1.dropWhile isJsSpace) with
    | none => none
    | some s2 => expectChars rbrace braces (s2.dropWhile isJsSpace)

/-- The test `s.search(re) > -1` for the regular expression of
`matchPlaceholder`: is there a match at some place of `s`? -/
def searchPlaceholder (braces : Nat) (name : List Char) : List Char → Bool
  | [] => (matchPlaceholder braces name []).isSome
  | c :: rest =>
    (matchPlaceholder braces name (c :: rest)).isSome || searchPlaceholder braces name rest

/-- The call `s.replace(re, " ")` with the flag `g` for the regular expression
of `matchPlaceholder`: from left to right, every match is replaced by one
space and the scan goes on behind it.  `fuel` bounds the number of steps; the
length of `s` is enough. -/
def replacePlaceholders (braces : Nat) (name : List Char) : Nat → List Char → List Char
  | 0, s => s
  | _ + 1, [] => []
  | fuel + 1, c :: rest =>
    match matchPlaceholder braces name (c :: rest) with
    | some rem => ' ' :: replacePlaceholders braces name fuel rem
    | none => c :: replacePlaceholders braces name fuel rest

/-- The object handed to `setDataSource` as `item`.  `options` is an array and
`question` an object (of which the text is kept), both truthy when present;
`src` and `value` are strings.  A field is `none` when the property is
missing. -/
structure SourceItem where
  options : Option (List String) := none
  src : Option String := none
  question : Option String := none
  value : Option String := none
deriving DecidableEq, Repr

/-- The text `'{{' + data_source + '}}'`. -/
def placeholderText (data_source : String) : String :=
  String.mk ([lbrace, lbrace] ++ data_source.data ++ [rbrace, rbrace])

/-- Does `setDataSource` work on `src` (and not on `value`)?  The test
`(!item.options || item.src) && item.question`; a string is truthy when it is
not empty. -/
def targetsSrc (item : SourceItem) : Bool :=
  (item.options.isNone || (item.src.getD "" != "")) && item.question.isSome

/-- The function `setDataSource(item, data_source)` for a plain data source
name.  `none` when it throws (`item.value` is missing in the second branch). -/
def setDataSource (item : SourceItem) (data_source : String) : Option SourceItem :=
  if targetsSrc item then
    -- item.src = item.src || ""
    let src := item.src.getD ""
    let parsed_item_src := normalizeSpaces src
    if searchPlaceholder 2 data_source.data parsed_item_src.data then
      some { item with src := some (String.mk
        (replacePlaceholders 1 data_source.data parsed_item_src.data.length
          parsed_item_src.data)) }
    else
      some { item with src := some (src ++ placeholderText data_source) }
  else
    match item.value with
    | none => none
    | some value =>
      let parsed_item_value := normalizeSpaces value
      if searchPlaceholder 1 data_source.data parsed_item_value.data then
        some { item with value := some (String.mk
          (replacePlaceholders 2 data_source.data parsed_item_value.data.length
            parsed_item_value.data)) }
      else
        some { item with value := some (value ++ placeholderText data_source) }

/-- Two calls of `setDataSource` with the same name, one after the other. -/
def setDataSourceTwice (item : SourceItem) (data_source : String) : Option SourceItem :=
  match setDataSource item data_source with
  | none => none
  | some item1 => setDataSource item1 data_source

/-! ## Sample inputs -/

/-- A text question followed by a slider from 1 to 5. -/
def textSliderQuestions : List Item :=
  [{ type := "text", aux_attributes := { question := some "Name" } },
   { type := "slider",
     aux_attributes := { question := some "Rating",
                         min := some (.int { val := 1, isSafe := by decide }),
                         max := some (.int { val := 5, isSafe := by decide }) } }]

/-- A worker who answered `"hello"` and `3`. -/
def textSliderWorker : List TaskWorker :=
  [{ results := [{ result := .str "hello" }, { result := .num 3 }] }]

/-- A checkbox question followed by a text question. -/
def checkboxTextQuestions : List Item :=
  [{ type := "checkbox", aux_attributes := { question := some "Pick", options := some ["A", "B"] } },
   { type := "text", aux_attributes := { question := some "Why" } }]

/-- A worker who ticked `A` of `A`, `B` and answered `"because"`. -/
def checkboxTextWorker : List TaskWorker :=
  [{ results := [{ result := .flags [{ value := "A", answer := true },
                                     { value := "B", answer := false }] },
                 { result := .str "because" }] }]

/-- A single checkbox question with the options `X` and `Y`. -/
def checkboxQuestions : List Item :=
  [{ type := "checkbox", aux_attributes := { question := some "Pick", options := some ["X", "Y"] } }]

/-- A worker whose checkbox answer is the given flags. -/
def checkboxWorker (fs : List Flag) : List TaskWorker :=
  [{ results := [{ result := .flags fs }] }]

/-- An editor state with two stored items and blueprints for their types. -/
def sampleState : State :=
  { heap := [{ id := some 10, type := "text", position := 1 },
             { id := some 11, type := "radio", position := 2 }],
    items := [0, 1],
    templateComponents := [{ type := "text" }, { type := "radio" }] }

/-- An editor state with three stored items, none of them selected. -/
def threeItemState : State :=
  { heap := [{ id := some 10, type := "text", position := 1 },
             { id := some 11, type := "radio", position := 2 },
             { id := some 12, type := "slider", position := 3 }],
    items := [0, 1, 2] }

/-- Two instructions followed by a checkbox question with one option. -/
def loopingQuestions : List Item :=
  [{ type := "instructions", aux_attributes := { question := some "Read" } },
   { type := "instructions", aux_attributes := { question := some "Then" } },
   { type := "checkbox", aux_attributes := { question := some "Pick", options := some ["A"] } }]

/-- A worker with a record for each of the three questions; the checkbox
answer has one flag. -/
def loopingWorker : List TaskWorker :=
  [{ results := [{ result := .null }, { result := .null },
                 { result := .flags [{ value := "A", answer := true }] }] }]

/-- The sample state with its two items listed in the other order. -/
def shuffledState : State :=
  { sampleState with items := [1, 0] }

/-- The worker-one view of an item of `retrieveItemsSameTask`: the item that
`retrieveItems` would show for worker one. -/
def workerOneView (x : ReviewItemSameTask) : ReviewItem :=
  { question := x.question, type := x.type, options := x.options, range := x.range,
    task_worker_answer := x.task_worker_one_answer }

/-- The worker-one view of the traversal's variables. -/
def workerOneState (st : LoopState ReviewItemSameTask) : LoopState ReviewItem :=
  { i := st.i, index := st.index, items := st.items.map workerOneView }

/-- Worker one of the checkbox scenario: `X` ticked. -/
def workerOneSample : List TaskWorker :=
  checkboxWorker [{ value := "X", answer := true }, { value := "Y", answer := false }]

/-- Worker two of the checkbox scenario: `Y` ticked. -/
def workerTwoSample : List TaskWorker :=
  checkboxWorker [{ value := "X", answer := false }, { value := "Y", answer := true }]

/-- What `retrieveItemsSameTask` returns in the checkbox scenario. -/
def sameTaskSample : List ReviewItemSameTask :=
  [{ question := "Pick", type := "checkbox", options := some ["X", "Y"],
     task_worker_one_answer := some (.str "X"),
     task_worker_two_answer := some (.str ", Y") }]

/-- The number of questions of a non-answer-consuming type in `qs`. -/
def displayCount (qs : List Item) : Nat :=
  qs.countP (fun q => isDisplayType q.type)

/-- The number of questions in `qs` for which the traversal pushes an item:
those of one of the nine recognised types. -/
def emittedCount (qs : List Item) : Nat :=
  qs.countP (fun q => isDisplayType q.type || isAnswerType q.type)

/-- An instructions question followed by a text question. -/
def instructionsTextQuestions : List Item :=
  [{ type := "instructions", aux_attributes := { question := some "Read" } },
   { type := "text", aux_attributes := { question := some "Why" } }]

/-- A worker with a record for the instructions and the answer `"because"`. -/
def instructionsTextWorker : List TaskWorker :=
  [{ results := [{ result := .null }, { result := .str "because" }] }]

/-- What `retrieveItems` returns for the two samples above. -/
def instructionsTextItems : List ReviewItem :=
  [{ question := "Read", type := "instructions" },
   { question := "Why", type := "text", task_worker_answer := some (.str "because") }]

/-- Two text questions. -/
def twoTextQuestions : List Item :=
  [{ type := "text", aux_attributes := { question := some "First" } },
   { type := "text", aux_attributes := { question := some "Second" } }]

/-- A worker with a single record. -/
def oneRecordWorker : List TaskWorker :=
  [{ results := [{ result := .str "only" }] }]

/-- A worker with a record for each of two questions. -/
def twoRecordWorker : List TaskWorker :=
  [{ results := [{ result := .str "one" }, { result := .str "two" }] }]

/-- A worker without any record. -/
def noRecordWorker : List TaskWorker :=
  [{ results := [] }]

/-- The characters of the placeholder for a data source name. -/
def placeholderChars (name : List Char) : List Char :=
  [lbrace, lbrace] ++ name ++ [rbrace, rbrace]

/-- The fields `question`, `type` and `range` of an emitted item are those of
the slider question `q`: the type is `slider`, the question text is the
question's, and the range is the text of `min`, then `" - "`, then the text
of `max`. -/
def carriesRange (q : Item) (question type : String) (range : Option String) : Prop :=
  type = "slider" ∧ q.aux_attributes.question = some question ∧
  ∃ lo hi, q.aux_attributes.min = some lo ∧ q.aux_attributes.max = some hi ∧
    range = some ((lo.text ++ " - ") ++ hi.text)

/-- The slider question of `textSliderQuestions`. -/
def sliderSample : Item :=
  { type := "slider",
    aux_attributes := { question := some "Rating",
                        min := some (.int { val := 1, isSafe := by decide }),
                        max := some (.int { val := 5, isSafe := by decide }) } }

/-- What `retrieveItems` returns for `textSliderQuestions` and
`textSliderWorker`. -/
def textSliderItems : List ReviewItem :=
  [{ question := "Name", type := "text", task_worker_answer := some (.str "hello") },
   { question := "Rating", type := "slider", range := some "1 - 5",
     task_worker_answer := some (.str "hello") }]

end CybrosX

namespace CybrosX

/-! ## Heap lemmas -/

theorem length_heapUpdate (heap : List Item) (r : Ref) (f : Item → Item) :
    (heapUpdate heap r f).length = heap.length := by
  simp [heapUpdate]

theorem getElem?_heapUpdate (heap : List Item) (r j : Ref) (f : Item → Item) :
    (heapUpdate heap r f)[j]? = if r = j then (heap[j]?).map f else heap[j]? := by
  simp only [heapUpdate, List.getElem?_modify]
  split <;> cases heap[j]? <;> simp

theorem positionOf_heapUpdate (heap : List Item) (r j : Ref) (f : Item → Item)
    (hf : ∀ it, (f it).position = it.position) :
    positionOf (heapUpdate heap r f) j = positionOf heap j := by
  unfold positionOf
  rw [getElem?_heapUpdate]
  split
  · cases heap[j]? <;> simp [hf]
  · rfl

theorem objectOf_heapUpdate (heap : List Item) (r j : Ref) (f : Item → Item)
    (hf : ∀ it, withoutSelection (f it) = withoutSelection it) :
    objectOf (heapUpdate heap r f) j = objectOf heap j := by
  unfold objectOf
  rw [getElem?_heapUpdate]
  split
  · cases heap[j]? <;> simp [hf]
  · rfl

theorem length_clearSelectedFlag (s : State) : (clearSelectedFlag s).length = s.heap.length := by
  unfold clearSelectedFlag
  split
  · rfl
  · exact length_heapUpdate _ _ _

theorem positionOf_clearSelectedFlag (s : State) (j : Ref) :
    positionOf (clearSelectedFlag s) j = positionOf s.heap j := by
  unfold clearSelectedFlag
  split
  · rfl
  · apply positionOf_heapUpdate
    intro it
    split <;> rfl

theorem objectOf_clearSelectedFlag (s : State) (j : Ref) :
    objectOf (clearSelectedFlag s) j = objectOf s.heap j := by
  unfold clearSelectedFlag
  split
  · rfl
  · apply objectOf_heapUpdate
    intro it
    split <;> rfl

theorem items_deselect (s : State) (item : Ref) : (deselect s item).items = s.items := by
  unfold deselect
  simp only
  split <;> rfl

theorem length_heap_deselect (s : State) (item : Ref) :
    (deselect s item).heap.length = s.heap.length := by
  unfold deselect
  simp only
  split
  · exact length_heapUpdate _ _ _
  · rfl

theorem positionOf_deselect (s : State) (item j : Ref) :
    positionOf (deselect s item).heap j = positionOf s.heap j := by
  unfold deselect
  simp only
  split
  · exact positionOf_heapUpdate _ _ _ _ (fun _ => rfl)
  · rfl

theorem objectOf_deselect (s : State) (item j : Ref) :
    objectOf (deselect s item).heap j = objectOf s.heap j := by
  unfold deselect
  simp only
  split
  · exact objectOf_heapUpdate _ _ _ _ (fun _ => rfl)
  · rfl

theorem templateComponents_deselect (s : State) (item : Ref) :
    (deselect s item).templateComponents = s.templateComponents := by
  unfold deselect
  simp only
  split <;> rfl

/-! ## `resetItemPosition` -/

theorem length_resetItemPositionFrom (items : List Ref) (i : Nat) (heap : List Item) :
    (resetItemPositionFrom items i heap).length = heap.length := by
  induction items generalizing i heap with
  | nil => rfl
  | cons r rest ih => simp [resetItemPositionFrom, ih, length_heapUpdate]

theorem getElem?_resetItemPositionFrom_of_not_mem (items : List Ref) (i : Nat)
    (heap : List Item) (r : Ref) (hr : r ∉ items) :
    (resetItemPositionFrom items i heap)[r]? = heap[r]? := by
  induction items generalizing i heap with
  | nil => rfl
  | cons a rest ih =>
    simp only [List.mem_cons, not_or] at hr
    simp only [resetItemPositionFrom]
    rw [ih _ _ hr.2, getElem?_heapUpdate, if_neg (Ne.symm hr.1)]

theorem getElem?_resetItemPositionFrom (items : List Ref) (i : Nat) (heap : List Item)
    (hnd : items.Nodup) (k : Nat) (hk : k < items.length) :
    (resetItemPositionFrom items i heap)[items[k]]? =
      (heap[items[k]]?).map (fun it => { it with position := ((i + k : Nat) : Int) + 1 }) := by
  induction items generalizing i heap k with
  | nil => simp at hk
  | cons a rest ih =>
    rw [List.nodup_cons] at hnd
    simp only [resetItemPositionFrom]
    cases k with
    | zero =>
      simp only [List.getElem_cons_zero, Nat.add_zero]
      rw [getElem?_resetItemPositionFrom_of_not_mem _ _ _ _ hnd.1, getElem?_heapUpdate, if_pos rfl]
    | succ k =>
      simp only [List.getElem_cons_succ]
      have hk1 : k < rest.length := by simpa using hk
      have hne : a ≠ rest[k] := fun h => hnd.1 (h ▸ List.getElem_mem hk1)
      rw [ih (i + 1) _ hnd.2 k hk1, getElem?_heapUpdate, if_neg hne]
      have : i + 1 + k = i + (k + 1) := by omega
      rw [this]

theorem getElem?_resetItemPositionFrom_fields (items : List Ref) (i : Nat) (heap : List Item)
    (r : Ref) :
    (resetItemPositionFrom items i heap)[r]?.map (fun it => { it with position := 0 }) =
      (heap[r]?).map (fun it => { it with position := 0 }) := by
  induction items generalizing i heap with
  | nil => rfl
  | cons a rest ih =>
    simp only [resetItemPositionFrom]
    rw [ih, getElem?_heapUpdate]
    split
    · cases heap[r]? <;> simp
    · rfl

theorem nodup_of_densePositions (s : State) (h : densePositions s) : s.items.Nodup := by
  unfold densePositions positions at h
  have hnd : ((List.range s.items.length).map (fun (i : Nat) => some ((i : Int) + 1))).Nodup := by
    apply List.Nodup.map _ (List.nodup_range _)
    intro a b hab
    simp only [Option.some.injEq, add_left_inj, Nat.cast_inj] at hab
    exact hab
  rw [← h] at hnd
  exact List.Nodup.of_map _ hnd

theorem allocated_of_densePositions (s : State) (h : densePositions s) : allocated s := by
  intro r hr
  obtain ⟨k, hk, rfl⟩ := List.getElem_of_mem hr
  unfold densePositions positions at h
  have h1 := congrArg (fun l => l[k]?) h
  simp only [List.getElem?_map, List.getElem?_eq_getElem hk, Option.map_some,
    List.getElem?_range hk] at h1
  by_contra hlt
  simp only [positionOf, Option.map_some', List.getElem?_eq_none (Nat.le_of_not_lt hlt),
    Option.map_none'] at h1
  simp at h1

theorem densePositions_of_reset (heap : List Item) (items : List Ref)
    (hnd : items.Nodup) (hall : ∀ r ∈ items, r < heap.length) :
    (items.map (positionOf (resetItemPositionFrom items 0 heap))) =
      (List.range items.length).map (fun (i : Nat) => some ((i : Int) + 1)) := by
  apply List.ext_getElem
  · simp
  · intro k h1 h2
    have hk : k < items.length := by simpa using h1
    simp only [List.getElem_map, List.getElem_range]
    unfold positionOf
    rw [getElem?_resetItemPositionFrom _ _ _ hnd k hk]
    have hlt := hall _ (List.getElem_mem hk)
    rw [List.getElem?_eq_getElem hlt]
    simp

/-! ## Array lemmas -/

theorem spliceRemoveOne_eq_eraseIdx (xs : List Ref) (start : Int) :
    spliceRemoveOne xs start = xs.eraseIdx (spliceStart xs.length start) := by
  rw [List.eraseIdx_eq_take_drop_succ]
  rfl

theorem mem_spliceInsert (xs : List Ref) (start : Int) (x r : Ref) :
    r ∈ spliceInsert xs start x ↔ r = x ∨ r ∈ xs := by
  unfold spliceInsert
  rw [(List.perm_middle).mem_iff, List.take_append_drop, List.mem_cons]

theorem nodup_spliceInsert (xs : List Ref) (start : Int) (x : Ref) (hnd : xs.Nodup)
    (hx : x ∉ xs) : (spliceInsert xs start x).Nodup := by
  unfold spliceInsert
  rw [(List.perm_middle).nodup_iff, List.take_append_drop, List.nodup_cons]
  exact ⟨hx, hnd⟩

theorem spliceStart_succ (len k : Nat) (hk : k < len) :
    spliceStart len ((k : Int) + 1) = k + 1 := by
  unfold spliceStart
  rw [if_neg (by omega)]
  omega

theorem indexOf_eq_natCast (xs : List Ref) (r : Ref) (k : Nat) (h : indexOf xs r = (k : Int)) :
    r ∈ xs ∧ xs.indexOf r = k := by
  unfold indexOf at h
  split at h
  · rename_i hm
    exact ⟨hm, by exact_mod_cast h⟩
  · omega

theorem positionOf_append_left (heap : List Item) (x : Item) (r : Ref) (hr : r < heap.length) :
    positionOf (heap ++ [x]) r = positionOf heap r := by
  unfold positionOf
  rw [List.getElem?_append_left hr]

theorem objectOf_append_left (heap : List Item) (x : Item) (r : Ref) (hr : r < heap.length) :
    objectOf (heap ++ [x]) r = objectOf heap r := by
  unfold objectOf
  rw [List.getElem?_append_left hr]

/-! ## Dense positions -/

theorem densePositions_addComponent_push (s : State) (component : Item) (index : Int)
    (id : Nat) (h : densePositions s) :
    densePositions (addComponent s component false index (.success id)) := by
  have hall := allocated_of_densePositions s h
  unfold densePositions positions at h ⊢
  simp only [addComponent, addComponentField, Bool.not_false, if_true, List.map_append,
    List.map_cons, List.map_nil, List.length_append, List.length_singleton, List.range_succ]
  congr 1
  · rw [← h]
    apply List.map_congr_left
    intro r hr
    rw [positionOf_append_left _ _ _ (by rw [length_clearSelectedFlag]; exact hall r hr),
      positionOf_clearSelectedFlag]
  · simp [positionOf]

theorem densePositions_addComponent_copy (s : State) (component : Item) (index : Int)
    (id : Nat) (h : densePositions s) :
    densePositions (addComponent s component true index (.success id)) := by
  have hall := allocated_of_densePositions s h
  have hnd := nodup_of_densePositions s h
  have hlen := length_clearSelectedFlag s
  unfold densePositions positions
  simp only [addComponent, resetItemPosition, Bool.not_true, Bool.false_eq_true, if_false]
  apply densePositions_of_reset
  · apply nodup_spliceInsert _ _ _ hnd
    intro hmem
    have := hall _ hmem
    rw [hlen] at this
    exact Nat.lt_irrefl _ this
  · intro r hr
    rw [mem_spliceInsert] at hr
    rw [List.length_append, List.length_singleton, hlen]
    rcases hr with rfl | hr
    · rw [hlen]
      exact Nat.lt_succ_self _
    · exact Nat.lt_succ_of_lt (hall r hr)

theorem densePositions_removeItem (s : State) (item : Ref) (h : densePositions s) :
    densePositions (removeItem s item) := by
  have hall := allocated_of_densePositions s h
  have hnd := nodup_of_densePositions s h
  unfold densePositions positions
  simp only [removeItem, resetItemPosition]
  have hsub : (spliceRemoveOne s.items (indexOf s.items item)).Sublist s.items := by
    rw [spliceRemoveOne_eq_eraseIdx]
    exact List.eraseIdx_sublist _ _
  apply densePositions_of_reset
  · exact hsub.nodup hnd
  · intro r hr
    exact hall r (hsub.subset hr)

/-- C5: dense positions are kept by every mutation of the item list.  When the
listed items have the positions `1..N` in list order, they again have the
positions `1..N'` in list order after a successful `addComponent` without
copy, after a successful `addComponent` with copy at any index, and after
`removeItem` of any item. -/
theorem densePositions_preserved (s : State) (component : Item) (index : Int) (id : Nat)
    (item : Ref) (h : densePositions s) :
    densePositions (addComponent s component false index (.success id)) ∧
    densePositions (addComponent s component true index (.success id)) ∧
    densePositions (removeItem s item) :=
  ⟨densePositions_addComponent_push s component index id h,
   densePositions_addComponent_copy s component index id h,
   densePositions_removeItem s item h⟩

/-! ## A rejected write -/

theorem positions_congr (s t : State) (hi : t.items = s.items)
    (hp : ∀ r, positionOf t.heap r = positionOf s.heap r) : positions t = positions s := by
  unfold positions
  rw [hi]
  exact List.map_congr_left (fun r _ => hp r)

theorem addComponent_failure (s : State) (component : Item) (copy_ : Bool) (index : Int) :
    (addComponent s component copy_ index .failure).items = s.items ∧
    (∀ r, positionOf (addComponent s component copy_ index .failure).heap r
        = positionOf s.heap r) ∧
    (∀ r, objectOf (addComponent s component copy_ index .failure).heap r
        = objectOf s.heap r) := by
  refine ⟨rfl, fun r => ?_, fun r => ?_⟩
  · exact positionOf_clearSelectedFlag s r
  · exact objectOf_clearSelectedFlag s r

theorem copy_failure (s : State) (item : Ref) :
    (copy s item .failure).state.items = s.items ∧
    (∀ r, positionOf (copy s item .failure).state.heap r = positionOf s.heap r) ∧
    (∀ r, objectOf (copy s item .failure).state.heap r = objectOf s.heap r) := by
  unfold copy
  simp only
  split
  · exact ⟨items_deselect s item, positionOf_deselect s item, objectOf_deselect s item⟩
  · split
    · exact ⟨items_deselect s item, positionOf_deselect s item, objectOf_deselect s item⟩
    · simp only [Completion.state]
      refine ⟨((addComponent_failure _ _ _ _).1).trans ?_,
        fun r => (((addComponent_failure _ _ _ _).2.1) r).trans ?_,
        fun r => (((addComponent_failure _ _ _ _).2.2) r).trans ?_⟩
      · exact items_deselect s item
      · exact positionOf_deselect s item r
      · exact objectOf_deselect s item r

/-- C10: a rejected write inserts nothing.  When the store rejects
`Template.addItem`, the item list after `addComponent`, and after `copy`
(which goes through `addComponent`), holds the same objects in the same order
with the same positions as before the call; of the listed objects at most an
`isSelected` flag has changed. -/
theorem rejected_write_keeps_list (s : State) (component : Item) (copy_ : Bool) (index : Int)
    (item : Ref) :
    ((addComponent s component copy_ index .failure).items = s.items ∧
     positions (addComponent s component copy_ index .failure) = positions s ∧
     ∀ r, objectOf (addComponent s component copy_ index .failure).heap r
        = objectOf s.heap r) ∧
    ((copy s item .failure).state.items = s.items ∧
     positions (copy s item .failure).state = positions s ∧
     ∀ r, objectOf (copy s item .failure).state.heap r = objectOf s.heap r) := by
  obtain ⟨a1, a2, a3⟩ := addComponent_failure s component copy_ index
  obtain ⟨c1, c2, c3⟩ := copy_failure s item
  exact ⟨⟨a1, positions_congr _ _ a1 a2, a3⟩, ⟨c1, positions_congr _ _ c1 c2, c3⟩⟩

/-! ## `copy` -/

theorem getElem?_deselect (s : State) (item r : Ref) (it : Item)
    (hit : s.heap[r]? = some it) :
    ∃ it1, (deselect s item).heap[r]? = some it1 ∧ withoutSelection it1 = withoutSelection it := by
  have h := objectOf_deselect s item r
  unfold objectOf at h
  rw [hit] at h
  cases h1 : (deselect s item).heap[r]? with
  | none => rw [h1] at h; simp at h
  | some it1 =>
    rw [h1] at h
    exact ⟨it1, rfl, by simpa using h⟩

theorem copy_success_eq (s : State) (item : Ref) (it : Item) (resp : StoreResponse)
    (hit : s.heap[item]? = some it)
    (hbp : ∃ c ∈ s.templateComponents, c.type = it.type) :
    ∃ component : Item, component.type = it.type ∧
      copy s item resp = .normal
        (addComponent { deselect s item with idGenIndex := (deselect s item).idGenIndex + 1 }
          { component with name := "", aux_attributes := it.aux_attributes,
                           required := it.required }
          true (indexOf s.items item) resp) := by
  obtain ⟨it1, h1, h2⟩ := getElem?_deselect s item item it hit
  have ht : it1.type = it.type :=
    show (withoutSelection it1).type = (withoutSelection it).type from congrArg Item.type h2
  have ha : it1.aux_attributes = it.aux_attributes :=
    show (withoutSelection it1).aux_attributes = (withoutSelection it).aux_attributes from
      congrArg Item.aux_attributes h2
  have hr : it1.required = it.required :=
    show (withoutSelection it1).required = (withoutSelection it).required from
      congrArg Item.required h2
  cases hf : (deselect s item).templateComponents.find?
      (fun component => component.type == it1.type) with
  | none =>
    rw [List.find?_eq_none, templateComponents_deselect] at hf
    obtain ⟨c, hc, hct⟩ := hbp
    exact absurd (by simp [hct, ht]) (hf c hc)
  | some component =>
    refine ⟨component, ?_, ?_⟩
    · have := List.find?_some hf
      simp only [beq_iff_eq] at this
      rw [this, ht]
    · unfold copy
      simp only [h1, hf, items_deselect, ha, hr]

theorem items_addComponent_copy (t : State) (component : Item) (index : Int) (id : Nat) :
    (addComponent t component true index (.success id)).items =
      spliceInsert t.items (index + 1) t.heap.length := by
  simp [addComponent, resetItemPosition, length_clearSelectedFlag]

theorem getElem?_addComponent_copy_new (t : State) (component : Item) (index : Int)
    (id : Nat) :
    ∃ c, (addComponent t component true index (.success id)).heap[t.heap.length]? = some c ∧
      c.type = component.type ∧ c.aux_attributes = component.aux_attributes ∧
      c.required = component.required ∧ c.name = "" ∧ c.id = some id := by
  have h := getElem?_resetItemPositionFrom_fields
    (spliceInsert t.items (index + 1) (clearSelectedFlag t).length) 0
    (clearSelectedFlag t ++ [{ addComponentField
      { t with heap := clearSelectedFlag t, idGenIndex := t.idGenIndex + 1 }
      component true index with id := some id }]) t.heap.length
  rw [← length_clearSelectedFlag t, List.getElem?_concat_length] at h
  simp only [addComponent, resetItemPosition, Bool.not_true, Bool.false_eq_true, if_false]
  rw [← length_clearSelectedFlag t]
  cases hc : (resetItemPositionFrom
      (spliceInsert t.items (index + 1) (clearSelectedFlag t).length) 0
      (clearSelectedFlag t ++ [{ addComponentField
        { t with heap := clearSelectedFlag t, idGenIndex := t.idGenIndex + 1 }
        component true index with id := some id }]))[(clearSelectedFlag t).length]? with
  | none => rw [hc] at h; simp at h
  | some c =>
    rw [hc] at h
    simp only [Option.map_some', Option.some.injEq] at h
    refine ⟨c, rfl, ?_, ?_, ?_, ?_, ?_⟩
    · exact (congrArg Item.type h :)
    · exact (congrArg Item.aux_attributes h :)
    · exact (congrArg Item.required h :)
    · exact (congrArg Item.name h :)
    · exact (congrArg Item.id h :)

/-- C7: a successful `copy` puts the copy right behind its source.  For an
allocated item whose index in the list (`self.items.indexOf(item)`) is `k` and
whose type has a blueprint among the template components, `copy(item)` with a
store answer `id` ends normally; the list is then the first `k + 1` original
elements, the new object, and the remaining original elements; the new object
is none of the original ones, and it has the source's `type`,
`aux_attributes` and `required`, the empty `name`, and the `id` of the store. -/
theorem copy_inserts_after_source (s : State) (item : Ref) (it : Item) (k id : Nat)
    (hall : allocated s)
    (hit : s.heap[item]? = some it)
    (hk : indexOf s.items item = (k : Int))
    (hbp : ∃ c ∈ s.templateComponents, c.type = it.type) :
    ∃ s1 c, copy s item (.success id) = .normal s1 ∧
      s1.items = s.items.take (k + 1) ++ s.heap.length :: s.items.drop (k + 1) ∧
      s.heap.length ∉ s.items ∧
      s1.heap[s.heap.length]? = some c ∧
      c.type = it.type ∧ c.aux_attributes = it.aux_attributes ∧ c.required = it.required ∧
      c.name = "" ∧ c.id = some id := by
  obtain ⟨component, hct, hcopy⟩ := copy_success_eq s item it (.success id) hit hbp
  obtain ⟨hmem, hidx⟩ := indexOf_eq_natCast _ _ _ hk
  have hklt : k < s.items.length := hidx ▸ List.indexOf_lt_length.2 hmem
  obtain ⟨c, hc, h1, h2, h3, h4, h5⟩ := getElem?_addComponent_copy_new
    { deselect s item with idGenIndex := (deselect s item).idGenIndex + 1 }
    { component with name := "", aux_attributes := it.aux_attributes, required := it.required }
    (indexOf s.items item) id
  have hlen : (deselect s item).heap.length = s.heap.length := length_heap_deselect s item
  refine ⟨_, c, hcopy, ?_, ?_, ?_, ?_, h2, h3, h4, h5⟩
  · rw [items_addComponent_copy]
    simp only [items_deselect, hlen, hk, spliceInsert, spliceStart_succ _ _ hklt]
  · intro hm
    exact Nat.lt_irrefl _ (hall _ hm)
  · simpa only [hlen] using hc
  · rw [h1]; exact hct

/-! ## `copy` followed by `removeItem` -/

theorem spliceRemoveOne_inserted (xs : List Ref) (k : Nat) (x : Ref) (hk : k < xs.length)
    (hx : x ∉ xs) :
    spliceRemoveOne (xs.take (k + 1) ++ x :: xs.drop (k + 1))
      (indexOf (xs.take (k + 1) ++ x :: xs.drop (k + 1)) x) = xs := by
  have hlen : (xs.take (k + 1)).length = k + 1 := by
    rw [List.length_take]; omega
  have hnot : x ∉ xs.take (k + 1) := fun h => hx (List.mem_of_mem_take h)
  have hidx : indexOf (xs.take (k + 1) ++ x :: xs.drop (k + 1)) x = ((k : Int) + 1) := by
    unfold indexOf
    rw [if_pos (by simp), List.indexOf_append_of_not_mem hnot, List.indexOf_cons_self, hlen]
    simp
  have hlen2 : (xs.take (k + 1) ++ x :: xs.drop (k + 1)).length = xs.length + 1 := by
    simp only [List.length_append, List.length_cons, List.length_take, List.length_drop]
    omega
  rw [hidx]
  unfold spliceRemoveOne
  rw [hlen2, spliceStart_succ _ _ (by omega)]
  have h1 : (xs.take (k + 1) ++ x :: xs.drop (k + 1)).take (k + 1) = xs.take (k + 1) := by
    rw [List.take_append_of_le_length (by omega), List.take_take]
    simp
  have h2 : (xs.take (k + 1) ++ x :: xs.drop (k + 1)).drop (k + 1 + 1) = xs.drop (k + 1) := by
    have e : k + 1 + 1 = (xs.take (k + 1)).length + 1 := by omega
    rw [e, List.drop_append]
    simp
  rw [h1, h2, List.take_append_drop]

theorem getElem?_addComponent_copy_old (t : State) (component : Item) (index : Int)
    (id : Nat) (r : Ref) (o : Item) (ho : t.heap[r]? = some o) :
    ∃ m, (addComponent t component true index (.success id)).heap[r]? = some m ∧
      withoutSelection { m with position := 0 } = withoutSelection { o with position := 0 } := by
  have hr : r < (clearSelectedFlag t).length := by
    rw [length_clearSelectedFlag]
    by_contra hlt
    rw [List.getElem?_eq_none (Nat.le_of_not_lt hlt)] at ho
    exact absurd ho (by simp)
  have h := getElem?_resetItemPositionFrom_fields
    (spliceInsert t.items (index + 1) (clearSelectedFlag t).length) 0
    (clearSelectedFlag t ++ [{ addComponentField
      { t with heap := clearSelectedFlag t, idGenIndex := t.idGenIndex + 1 }
      component true index with id := some id }]) r
  rw [List.getElem?_append_left hr] at h
  have h2 := objectOf_clearSelectedFlag t r
  unfold objectOf at h2
  rw [ho, List.getElem?_eq_getElem hr] at h2
  rw [List.getElem?_eq_getElem hr] at h
  simp only [Option.map_some', Option.some.injEq] at h2
  simp only [addComponent, resetItemPosition, Bool.not_true, Bool.false_eq_true, if_false]
  cases hc : (resetItemPositionFrom
      (spliceInsert t.items (index + 1) (clearSelectedFlag t).length) 0
      (clearSelectedFlag t ++ [{ addComponentField
        { t with heap := clearSelectedFlag t, idGenIndex := t.idGenIndex + 1 }
        component true index with id := some id }]))[r]? with
  | none => rw [hc] at h; simp at h
  | some m =>
    rw [hc] at h
    simp only [Option.map_some', Option.some.injEq] at h
    refine ⟨m, rfl, ?_⟩
    have e1 : withoutSelection { m with position := 0 }
        = withoutSelection { (clearSelectedFlag t)[r] with position := 0 } :=
      congrArg withoutSelection h
    have e2 : ({ withoutSelection (clearSelectedFlag t)[r] with position := 0 } : Item)
        = { withoutSelection o with position := 0 } :=
      congrArg (fun x : Item => ({ x with position := 0 } : Item)) h2
    exact e1.trans e2

theorem getElem?_of_objectOf_eq (heap1 heap : List Item) (r : Ref) (o : Item)
    (h : objectOf heap1 r = objectOf heap r) (ho : heap[r]? = some o) :
    ∃ o1, heap1[r]? = some o1 ∧ withoutSelection o1 = withoutSelection o := by
  unfold objectOf at h
  rw [ho] at h
  cases h1 : heap1[r]? with
  | none => rw [h1] at h; simp at h
  | some o1 =>
    rw [h1] at h
    exact ⟨o1, rfl, by simpa using h⟩

theorem addComponent_copy_then_removeItem (s t : State) (field : Item) (item : Ref) (id : Nat)
    (h : densePositions s) (hmem : item ∈ s.items)
    (hti : t.items = s.items) (htl : t.heap.length = s.heap.length)
    (htp : ∀ r, positionOf t.heap r = positionOf s.heap r)
    (hto : ∀ r, objectOf t.heap r = objectOf s.heap r) :
    (removeItem (addComponent t field true (indexOf s.items item) (.success id))
        s.heap.length).items = s.items ∧
    positions (removeItem (addComponent t field true (indexOf s.items item) (.success id))
        s.heap.length) = positions s ∧
    densePositions (removeItem (addComponent t field true (indexOf s.items item) (.success id))
        s.heap.length) ∧
    ∀ r ∈ s.items, objectOf (removeItem
        (addComponent t field true (indexOf s.items item) (.success id)) s.heap.length).heap r
        = objectOf s.heap r := by
  have hall := allocated_of_densePositions s h
  have hnd := nodup_of_densePositions s h
  have hfresh : s.heap.length ∉ s.items := fun hm => Nat.lt_irrefl _ (hall _ hm)
  have hklt : s.items.indexOf item < s.items.length := List.indexOf_lt_length.2 hmem
  have hk : indexOf s.items item = ((s.items.indexOf item : Nat) : Int) := by
    unfold indexOf
    rw [if_pos hmem]
  have htd : densePositions t := by
    unfold densePositions positions
    rw [hti, ← h]
    unfold positions
    exact List.map_congr_left (fun r _ => htp r)
  have hitems : (removeItem (addComponent t field true (indexOf s.items item) (.success id))
      s.heap.length).items = s.items := by
    show spliceRemoveOne (addComponent t field true _ _).items
      (indexOf (addComponent t field true _ _).items _) = _
    rw [items_addComponent_copy]
    simp only [hti, htl, hk, spliceInsert, spliceStart_succ _ _ hklt]
    exact spliceRemoveOne_inserted s.items _ _ hklt hfresh
  have hdense : densePositions (removeItem
      (addComponent t field true (indexOf s.items item) (.success id)) s.heap.length) :=
    densePositions_removeItem _ _ (densePositions_addComponent_copy _ _ _ _ htd)
  have hheap : (removeItem (addComponent t field true (indexOf s.items item) (.success id))
      s.heap.length).heap = resetItemPositionFrom s.items 0
        (addComponent t field true (indexOf s.items item) (.success id)).heap := by
    have := hitems
    unfold removeItem resetItemPosition at this ⊢
    simp only at this ⊢
    rw [this]
  refine ⟨hitems, ?_, hdense, ?_⟩
  · have hd := hdense
    unfold densePositions at hd
    rw [hd, hitems]
    exact h.symm
  · intro r hr
    obtain ⟨j, hj, rfl⟩ := List.getElem_of_mem hr
    have hlt : s.items[j] < s.heap.length := hall _ hr
    have hpos := congrArg (fun l => l[j]?) h
    simp only [positions, List.getElem?_map, List.getElem?_eq_getElem hj, Option.map_some',
      List.getElem?_range hj, positionOf, List.getElem?_eq_getElem hlt,
      Option.some.injEq] at hpos
    obtain ⟨o1, ho1, ho1eq⟩ := getElem?_of_objectOf_eq t.heap s.heap s.items[j] _
      (hto _) (List.getElem?_eq_getElem hlt)
    obtain ⟨m, hm, hmeq⟩ := getElem?_addComponent_copy_old t field
      (indexOf s.items item) id s.items[j] o1 ho1
    have hfin := getElem?_resetItemPositionFrom s.items 0
      (addComponent t field true (indexOf s.items item) (.success id)).heap hnd j hj
    rw [hm] at hfin
    unfold objectOf
    rw [hheap, hfin, List.getElem?_eq_getElem hlt]
    simp only [Option.map_some', Option.some.injEq, Nat.zero_add]
    have e1 : withoutSelection { m with position := (j : Int) + 1 }
        = { withoutSelection { m with position := 0 } with position := (j : Int) + 1 } := rfl
    have e2 : withoutSelection s.heap[s.items[j]]
        = { withoutSelection { s.heap[s.items[j]] with position := 0 } with
            position := (j : Int) + 1 } := by
      rw [← hpos]
      rfl
    have e3 : withoutSelection { o1 with position := 0 }
        = withoutSelection { s.heap[s.items[j]] with position := 0 } :=
      congrArg (fun x : Item => ({ x with position := 0 } : Item)) ho1eq
    rw [e1, e2, hmeq, e3]

/-- C8: copying an item and removing the copy restores the list.  When the
listed items have the positions `1..N` in list order, `item` is in the list
and has a blueprint, then `copy(item)` with a store answer `id` ends
normally, and `removeItem` of the new object leaves the list with the
original objects in the original order and with the original positions
`1..N`; of each listed object nothing but possibly the `isSelected` flag has
changed. -/
theorem copy_then_removeItem_restores (s : State) (item : Ref) (it : Item) (id : Nat)
    (h : densePositions s) (hmem : item ∈ s.items)
    (hit : s.heap[item]? = some it)
    (hbp : ∃ c ∈ s.templateComponents, c.type = it.type) :
    ∃ s1, copy s item (.success id) = .normal s1 ∧
      (removeItem s1 s.heap.length).items = s.items ∧
      positions (removeItem s1 s.heap.length) = positions s ∧
      densePositions (removeItem s1 s.heap.length) ∧
      ∀ r ∈ s.items, objectOf (removeItem s1 s.heap.length).heap r = objectOf s.heap r := by
  obtain ⟨component, _, hcopy⟩ := copy_success_eq s item it (.success id) hit hbp
  exact ⟨_, hcopy, addComponent_copy_then_removeItem s
    { deselect s item with idGenIndex := (deselect s item).idGenIndex + 1 } _ item id h hmem
    (items_deselect s item) (length_heap_deselect s item) (positionOf_deselect s item)
    (objectOf_deselect s item)⟩

/-! ## The traversals: step budget -/

theorem retrieveItemsLoop_mono (questions : List Item) (task_worker : List TaskWorker)
    (fuel extra : Nat) (st : LoopState ReviewItem) (r : List ReviewItem)
    (h : retrieveItemsLoop questions task_worker fuel st = .returned r) :
    retrieveItemsLoop questions task_worker (fuel + extra) st = .returned r := by
  induction fuel generalizing st with
  | zero => simp [retrieveItemsLoop] at h
  | succ fuel ih =>
    rw [Nat.add_right_comm]
    simp only [retrieveItemsLoop] at h ⊢
    split
    · simp_all
    · rename_i question hq
      simp only [hq] at h
      split
      · simp_all
      · rename_i st1 hb
        simp only [hb] at h
        exact ih _ h

theorem retrieveItemsSameTaskLoop_mono (questions : List Item)
    (task_worker_one task_worker_two : List TaskWorker)
    (fuel extra : Nat) (st : LoopState ReviewItemSameTask) (r : List ReviewItemSameTask)
    (h : retrieveItemsSameTaskLoop questions task_worker_one task_worker_two fuel st
      = .returned r) :
    retrieveItemsSameTaskLoop questions task_worker_one task_worker_two (fuel + extra) st
      = .returned r := by
  induction fuel generalizing st with
  | zero => simp [retrieveItemsSameTaskLoop] at h
  | succ fuel ih =>
    rw [Nat.add_right_comm]
    simp only [retrieveItemsSameTaskLoop] at h ⊢
    split
    · simp_all
    · rename_i question hq
      simp only [hq] at h
      split
      · simp_all
      · rename_i st1 hb
        simp only [hb] at h
        exact ih _ h

/-! ## The traversals on sample inputs -/

/-- C1: on the template `[text, slider 1..5]` with the answers `"hello"` and
`3`, `retrieveItems` returns, with any budget of at least three loop tests, a
list whose slider item carries the answer `"hello"` of the first result, not
the `3` of the second: `index` is not advanced by an answer-consuming
question. -/
theorem retrieveItems_text_slider (extra : Nat) :
    retrieveItems (3 + extra) textSliderQuestions textSliderWorker =
      .returned
        [{ question := "Name", type := "text", task_worker_answer := some (.str "hello") },
         { question := "Rating", type := "slider", range := some "1 - 5",
           task_worker_answer := some (.str "hello") }] :=
  retrieveItemsLoop_mono _ _ 3 extra _ _ (by decide)

/-- C2: on the template `[checkbox, text]` with a checkbox answer of two
flags, `retrieveItems` returns, with any budget of at least two loop tests, a
list of one element for two questions: the inner loop of the checkbox branch
leaves the shared `i` at `2`, so the text question is never visited. -/
theorem retrieveItems_checkbox_text (extra : Nat) :
    retrieveItems (2 + extra) checkboxTextQuestions checkboxTextWorker =
      .returned
        [{ question := "Pick", type := "checkbox", options := some ["A", "B"],
           task_worker_answer := some (.str "A") }] :=
  retrieveItemsLoop_mono _ _ 2 extra _ _ (by decide)

/-- C3: for the checkbox answer `A`/false, `B`/true the answer string built by
`retrieveItems` is `", B"`, with a leading separator: the separator is left
out at index `0` only, not before the first ticked value. -/
theorem retrieveItems_checkbox_leading_separator (extra : Nat) :
    retrieveItems (2 + extra) checkboxQuestions
        (checkboxWorker [{ value := "A", answer := false }, { value := "B", answer := true }]) =
      .returned
        [{ question := "Pick", type := "checkbox", options := some ["X", "Y"],
           task_worker_answer := some (.str ", B") }] :=
  retrieveItemsLoop_mono _ _ 2 extra _ _ (by decide)

/-- C4: in `retrieveItemsSameTask`, with worker-two flags `X`/false, `Y`/true,
worker two's answer string is `", Y"` when worker one's flags are `X`/true,
`Y`/false, it is `", Q"` when worker one's flags are `P`/true, `Q`/false, and
it is empty when worker one's answer has the single flag `X`/true. -/
theorem retrieveItemsSameTask_checkbox_worker_two (extra : Nat) :
    retrieveItemsSameTask (2 + extra) checkboxQuestions
        (checkboxWorker [{ value := "X", answer := true }, { value := "Y", answer := false }])
        (checkboxWorker [{ value := "X", answer := false }, { value := "Y", answer := true }]) =
      .returned
        [{ question := "Pick", type := "checkbox", options := some ["X", "Y"],
           task_worker_one_answer := some (.str "X"),
           task_worker_two_answer := some (.str ", Y") }] ∧
    retrieveItemsSameTask (2 + extra) checkboxQuestions
        (checkboxWorker [{ value := "P", answer := true }, { value := "Q", answer := false }])
        (checkboxWorker [{ value := "X", answer := false }, { value := "Y", answer := true }]) =
      .returned
        [{ question := "Pick", type := "checkbox", options := some ["X", "Y"],
           task_worker_one_answer := some (.str "P"),
           task_worker_two_answer := some (.str ", Q") }] ∧
    retrieveItemsSameTask (2 + extra) checkboxQuestions
        (checkboxWorker [{ value := "X", answer := true }])
        (checkboxWorker [{ value := "X", answer := false }, { value := "Y", answer := true }]) =
      .returned
        [{ question := "Pick", type := "checkbox", options := some ["X", "Y"],
           task_worker_one_answer := some (.str "X"),
           task_worker_two_answer := some (.str "") }] :=
  ⟨retrieveItemsSameTaskLoop_mono _ _ _ 2 extra _ _ (by decide),
   retrieveItemsSameTaskLoop_mono _ _ _ 2 extra _ _ (by decide),
   retrieveItemsSameTaskLoop_mono _ _ _ 2 extra _ _ (by decide)⟩

/-! ## The item list on a sample state -/

/-- C5, at a sample state: the two-item list with positions `1, 2`. -/
theorem densePositions_preserved_witness :
    densePositions sampleState ∧
    (densePositions (addComponent sampleState { type := "slider" } false 0 (.success 12)) ∧
     densePositions (addComponent sampleState { type := "slider" } true 0 (.success 12)) ∧
     densePositions (removeItem sampleState 0)) :=
  ⟨by decide, densePositions_preserved sampleState { type := "slider" } 0 12 0 (by decide)⟩

/-- C6: `removeItem` of an object that is not in the list removes the last
element: `indexOf` gives `-1` and `splice(-1, 1)` deletes from the end. -/
theorem removeItem_absent_removes_last :
    indexOf sampleState.items 5 = -1 ∧ (removeItem sampleState 5).items = [0] := by
  decide

/-- C7, at a sample state: copying the first of two items. -/
theorem copy_inserts_after_source_witness :
    allocated sampleState ∧
    sampleState.heap[0]? = some { id := some 10, type := "text", position := 1 } ∧
    indexOf sampleState.items 0 = ((0 : Nat) : Int) ∧
    (∃ c ∈ sampleState.templateComponents, c.type = "text") ∧
    ∃ s1 c, copy sampleState 0 (.success 12) = .normal s1 ∧
      s1.items = sampleState.items.take (0 + 1) ++
        sampleState.heap.length :: sampleState.items.drop (0 + 1) ∧
      sampleState.heap.length ∉ sampleState.items ∧
      s1.heap[sampleState.heap.length]? = some c ∧
      c.type = "text" ∧ c.aux_attributes = {} ∧ c.required = false ∧
      c.name = "" ∧ c.id = some 12 :=
  ⟨by decide, by decide, by decide, ⟨{ type := "text" }, by decide, rfl⟩,
   copy_inserts_after_source sampleState 0 { id := some 10, type := "text", position := 1 }
     0 12 (by decide) (by decide) (by decide) ⟨{ type := "text" }, by decide, rfl⟩⟩

/-- C8, at a sample state: copying the first of two items and removing the copy. -/
theorem copy_then_removeItem_restores_witness :
    densePositions sampleState ∧ 0 ∈ sampleState.items ∧
    sampleState.heap[0]? = some { id := some 10, type := "text", position := 1 } ∧
    (∃ c ∈ sampleState.templateComponents, c.type = "text") ∧
    ∃ s1, copy sampleState 0 (.success 12) = .normal s1 ∧
      (removeItem s1 sampleState.heap.length).items = sampleState.items ∧
      positions (removeItem s1 sampleState.heap.length) = positions sampleState ∧
      densePositions (removeItem s1 sampleState.heap.length) ∧
      ∀ r ∈ sampleState.items,
        objectOf (removeItem s1 sampleState.heap.length).heap r = objectOf sampleState.heap r :=
  ⟨by decide, by decide, by decide, ⟨{ type := "text" }, by decide, rfl⟩,
   copy_then_removeItem_restores sampleState 0 { id := some 10, type := "text", position := 1 }
     12 (by decide) (by decide) (by decide) ⟨{ type := "text" }, by decide, rfl⟩⟩

/-- C9: a copy added at index `0` of a one-item list is handed to the store
with position `1`, the position of its source, and ends up second in the
list with position `2`. -/
theorem addComponent_copy_position_differs :
    (addComponentField { sampleState with items := [0] } { type := "text" } true 0).position = 1 ∧
    (addComponent { sampleState with items := [0] } { type := "text" } true 0
      (.success 12)).items = [0, 2] ∧
    positions (addComponent { sampleState with items := [0] } { type := "text" } true 0
      (.success 12)) = [some 1, some 2] := by
  decide

/-! ## Selection -/

/-- C11: from the three-item list with no selected item, the calls
`select(a)`, `removeItem(b)`, `select(c)` lead to a list `[a, c]` in which
both items have `isSelected = true`: `removeItem` forgets `selectedItem`
without clearing the flag of the item it pointed to. -/
theorem select_removeItem_select_two_selected :
    threeItemState.selectedItem = none ∧
    threeItemState.heap.map (fun it => it.isSelected) = [none, none, none] ∧
    (select (removeItem (select threeItemState 0) 1) 2).items = [0, 2] ∧
    (select (removeItem (select threeItemState 0) 1) 2).heap.map (fun it => it.isSelected)
      = [some true, none, some true] := by
  decide

/-- C12: with the first item selected, `removeItem` of the second item sets
`selectedItem` to `null` although the removed item was not the selected one;
the `isSelected` flags are left as they were. -/
theorem removeItem_forgets_other_selection :
    (select threeItemState 0).selectedItem = some 0 ∧
    (select threeItemState 0).heap.map (fun it => it.isSelected) = [some true, none, none] ∧
    (removeItem (select threeItemState 0) 1).items = [0, 2] ∧
    (removeItem (select threeItemState 0) 1).selectedItem = none ∧
    (removeItem (select threeItemState 0) 1).heap.map (fun it => it.isSelected)
      = [some true, none, none] := by
  decide

/-! ## `setDataSource` on sample inputs -/

/-- C14: on `src` the placeholder is found with two braces but removed with
one, so `a{{city}}` becomes `a{ }`; on `value` it is looked for with one
brace, so for `x {city}` nothing is appended. -/
theorem setDataSource_mismatched_patterns :
    setDataSource { question := some "Q", src := some "a\x7b\x7bcity\x7d\x7d" } "city"
      = some { question := some "Q", src := some "a\x7b \x7d" } ∧
    setDataSource { value := some "x \x7bcity\x7d" } "city"
      = some { value := some "x \x7bcity\x7d" } := by
  decide

/-! ## `onSort` -/

/-- C16: `onSort` renumbers and changes nothing else.  For a list of distinct
allocated objects, whatever their positions, after `onSort` the list is the
same, the object at each index `i` has position `i + 1`, every object of the
heap has kept all its other fields, objects outside the list are untouched,
and the rest of the state is as before. -/
theorem onSort_renumbers (s : State) (hnd : s.items.Nodup) (hall : allocated s) :
    (onSort s).items = s.items ∧
    (∀ i (h : i < s.items.length),
      positionOf (onSort s).heap (s.items.get ⟨i, h⟩) = some ((i : Int) + 1)) ∧
    (onSort s).heap.length = s.heap.length ∧
    (∀ r : Ref, ((onSort s).heap[r]?).map (fun (it : Item) => { it with position := 0 })
        = (s.heap[r]?).map (fun (it : Item) => { it with position := 0 })) ∧
    (∀ r : Ref, r ∉ s.items → (onSort s).heap[r]? = s.heap[r]?) ∧
    (onSort s).selectedItem = s.selectedItem ∧
    (onSort s).projectSelectedItem = s.projectSelectedItem ∧
    (onSort s).templateComponents = s.templateComponents := by
  refine ⟨rfl, ?_, ?_, ?_, ?_, rfl, rfl, rfl⟩
  · intro i h
    show positionOf (resetItemPositionFrom s.items 0 s.heap) s.items[i] = _
    unfold positionOf
    rw [getElem?_resetItemPositionFrom _ _ _ hnd i h,
      List.getElem?_eq_getElem (hall _ (List.getElem_mem h))]
    simp
  · exact length_resetItemPositionFrom _ _ _
  · intro r
    exact getElem?_resetItemPositionFrom_fields _ _ _ r
  · intro r hr
    exact getElem?_resetItemPositionFrom_of_not_mem _ _ _ r hr

/-- C16, at a sample state whose positions are out of order. -/
theorem onSort_renumbers_witness :
    shuffledState.items.Nodup ∧ allocated shuffledState ∧
    positionOf (onSort shuffledState).heap 1 = some 1 ∧
    positionOf (onSort shuffledState).heap 0 = some 2 :=
  ⟨by decide, by decide,
   (onSort_renumbers shuffledState (by decide) (by decide)).2.1 0 (by decide),
   (onSort_renumbers shuffledState (by decide) (by decide)).2.1 1 (by decide)⟩

/-! ## The slider -/

theorem slider_item (question : Item) (q : String) (lo hi : Bound)
    (task_worker task_worker_two : List TaskWorker) (r r2 : ResultValue)
    (st : LoopState ReviewItem) (st2 : LoopState ReviewItemSameTask)
    (ht : question.type = "slider")
    (hq : question.aux_attributes.question = some q)
    (hlo : question.aux_attributes.min = some lo)
    (hhi : question.aux_attributes.max = some hi)
    (hr : resultAt task_worker st.index = some r)
    (hr1 : resultAt task_worker st2.index = some r)
    (hr2 : resultAt task_worker_two st2.index = some r2) :
    retrieveItemsBody question task_worker st =
      some { st with items := st.items ++
        [{ question := q, type := "slider",
           range := some ((lo.text ++ " - ") ++ hi.text),
           task_worker_answer := some r }] } ∧
    retrieveItemsSameTaskBody question task_worker task_worker_two st2 =
      some { st2 with items := st2.items ++
        [{ question := q, type := "slider",
           range := some ((lo.text ++ " - ") ++ hi.text),
           task_worker_one_answer := some r, task_worker_two_answer := some r2 }] } := by
  constructor
  · simp [retrieveItemsBody, ht, hq, hlo, hhi, hr, sliderRange, isDisplayType]
  · simp [retrieveItemsSameTaskBody, ht, hq, hlo, hhi, hr1, hr2, sliderRange, isDisplayType]

/-! ## A traversal that does not end -/

theorem retrieveItemsLoop_stuck (fuel : Nat) (items : List ReviewItem) :
    retrieveItemsLoop loopingQuestions loopingWorker fuel { i := 2, index := 2, items := items }
      = .running := by
  induction fuel generalizing items with
  | zero => rfl
  | succ fuel ih => exact ih _

theorem retrieveItemsSameTaskLoop_stuck (fuel : Nat) (items : List ReviewItemSameTask) :
    retrieveItemsSameTaskLoop loopingQuestions loopingWorker loopingWorker fuel
      { i := 2, index := 2, items := items } = .running := by
  induction fuel generalizing items with
  | zero => rfl
  | succ fuel ih => exact ih _

/-- C20: on two instructions followed by a checkbox question with one option,
with a stored record for every question, no lookup fails and neither
traversal ever returns: after the checkbox question at index `2` the inner
loop has left the shared `i` at `1`, the `i++` of the outer loop makes it `2`
and the same question is visited again, whatever the step budget. -/
theorem traversal_revisits_checkbox (fuel : Nat) :
    retrieveItems fuel loopingQuestions loopingWorker = .running ∧
    retrieveItemsSameTask fuel loopingQuestions loopingWorker loopingWorker = .running := by
  match fuel with
  | 0 => exact ⟨rfl, rfl⟩
  | 1 => exact ⟨rfl, rfl⟩
  | fuel + 2 =>
    exact ⟨retrieveItemsLoop_stuck fuel _, retrieveItemsSameTaskLoop_stuck fuel _⟩

/-! ## The two traversals on worker one -/

theorem checkboxLoop_of_sameTask (one two : ResultValue) (n i : Nat) (a1 a2 x y : String)
    (h : checkboxLoopSameTask one two n i a1 a2 = some (x, y)) :
    checkboxLoop one n i a1 = some x := by
  induction n generalizing i a1 a2 with
  | zero =>
    simp only [checkboxLoopSameTask, Option.some.injEq, Prod.mk.injEq] at h
    simp [checkboxLoop, h.1]
  | succ n ih =>
    simp only [checkboxLoopSameTask] at h
    simp only [checkboxLoop]
    cases h1 : answerIsTrue one i with
    | none => simp [h1] at h
    | some b =>
      cases b with
      | true =>
        cases hv : valueText one i with
        | none => simp [h1, hv] at h
        | some v =>
          simp only [h1, hv] at h ⊢
          by_cases hi : i = 0
          · simp only [hi, if_true] at h ⊢
            split at h
            · simp at h
            · exact ih _ _ _ h
          · simp only [hi, if_false] at h ⊢
            split at h
            · simp at h
            · exact ih _ _ _ h
      | false =>
        simp only [h1] at h ⊢
        split at h
        · simp at h
        · exact ih _ _ _ h

theorem retrieveItemsBody_of_sameTask (question : Item)
    (task_worker_one task_worker_two : List TaskWorker)
    (st st1 : LoopState ReviewItemSameTask)
    (h : retrieveItemsSameTaskBody question task_worker_one task_worker_two st = some st1) :
    retrieveItemsBody question task_worker_one (workerOneState st)
      = some (workerOneState st1) := by
  unfold retrieveItemsSameTaskBody at h
  unfold retrieveItemsBody
  split_ifs at h ⊢
  · split at h
    · simp at h
    · simp only [Option.some.injEq] at h
      subst h
      simp_all [workerOneState, workerOneView]
  · split at h
    · simp only [Option.some.injEq] at h
      subst h
      simp_all [workerOneState, workerOneView]
    · simp at h
  · cases hr1 : resultAt task_worker_one st.index with
    | none => simp [hr1] at h
    | some one =>
      cases hr2 : resultAt task_worker_two st.index with
      | none => simp [hr1, hr2] at h
      | some two =>
        simp only [hr1, hr2] at h
        have hix : (workerOneState st).index = st.index := rfl
        simp only [hix, hr1]
        cases hl : jsLength one with
        | none => simp [hl] at h
        | some len =>
          simp only [hl] at h ⊢
          cases hc : checkboxLoopSameTask one two (len.getD 0) 0 "" "" with
          | none => simp [hc] at h
          | some p =>
            obtain ⟨x, y⟩ := p
            simp only [hc] at h
            rw [checkboxLoop_of_sameTask one two _ _ _ _ x y hc]
            cases hq : question.aux_attributes.question with
            | none => simp [hq] at h
            | some q =>
              simp only [hq, Option.some.injEq] at h ⊢
              subst h
              simp [workerOneState, workerOneView]
  · split at h
    · simp only [Option.some.injEq] at h
      subst h
      simp_all [workerOneState, workerOneView]
    · simp at h
  · split at h
    · simp only [Option.some.injEq] at h
      subst h
      simp_all [workerOneState, workerOneView]
    · simp at h
  · simp only [Option.some.injEq] at h
    subst h
    rfl

theorem retrieveItemsLoop_of_sameTask (questions : List Item)
    (task_worker_one task_worker_two : List TaskWorker) (fuel : Nat)
    (st : LoopState ReviewItemSameTask) (items : List ReviewItemSameTask)
    (h : retrieveItemsSameTaskLoop questions task_worker_one task_worker_two fuel st
      = .returned items) :
    retrieveItemsLoop questions task_worker_one fuel (workerOneState st)
      = .returned (items.map workerOneView) := by
  induction fuel generalizing st with
  | zero => simp [retrieveItemsSameTaskLoop] at h
  | succ fuel ih =>
    simp only [retrieveItemsSameTaskLoop] at h
    simp only [retrieveItemsLoop]
    have hi : (workerOneState st).i = st.i := rfl
    rw [hi]
    cases hq : questions[st.i]? with
    | none =>
      simp only [hq, Outcome.returned.injEq] at h
      subst h
      rfl
    | some question =>
      simp only [hq] at h ⊢
      cases hb : retrieveItemsSameTaskBody question task_worker_one task_worker_two st with
      | none => simp [hb] at h
      | some st1 =>
        simp only [hb] at h
        rw [retrieveItemsBody_of_sameTask _ _ _ _ _ hb]
        exact ih _ h

/-- C19: the two traversals agree on worker one.  Whenever
`retrieveItemsSameTask(questions, w1, w2)` returns a list within a step
budget, `retrieveItems(questions, w1)` returns within the same budget a list
of the same length, and at every index the two items have the same
`question`, `type`, `options` and `range`, and `task_worker_answer` is the
`task_worker_one_answer`. -/
theorem retrieveItems_agrees_on_worker_one (fuel : Nat) (questions : List Item)
    (task_worker_one task_worker_two : List TaskWorker) (items2 : List ReviewItemSameTask)
    (h : retrieveItemsSameTask fuel questions task_worker_one task_worker_two
      = .returned items2) :
    ∃ items1 : List ReviewItem, retrieveItems fuel questions task_worker_one = .returned items1 ∧
      items1.length = items2.length ∧
      ∀ (i : Nat) (a : ReviewItem) (b : ReviewItemSameTask), items1[i]? = some a → items2[i]? = some b →
        a.question = b.question ∧ a.type = b.type ∧ a.options = b.options ∧
        a.range = b.range ∧ a.task_worker_answer = b.task_worker_one_answer := by
  refine ⟨items2.map workerOneView, retrieveItemsLoop_of_sameTask _ _ _ _ _ _ h, by simp, ?_⟩
  intro i a b ha hb
  rw [List.getElem?_map, hb] at ha
  simp only [Option.map_some', Option.some.injEq] at ha
  subst ha
  exact ⟨rfl, rfl, rfl, rfl, rfl⟩

/-- C19, at the checkbox question answered by two workers. -/
theorem retrieveItems_agrees_on_worker_one_witness :
    retrieveItemsSameTask 2 checkboxQuestions workerOneSample workerTwoSample
      = .returned sameTaskSample ∧
    ∃ items1 : List ReviewItem,
      retrieveItems 2 checkboxQuestions workerOneSample = .returned items1 ∧
      items1.length = sameTaskSample.length ∧
      ∀ (i : Nat) (a : ReviewItem) (b : ReviewItemSameTask), items1[i]? = some a →
        sameTaskSample[i]? = some b →
        a.question = b.question ∧ a.type = b.type ∧ a.options = b.options ∧
        a.range = b.range ∧ a.task_worker_answer = b.task_worker_one_answer :=
  ⟨by decide,
   retrieveItems_agrees_on_worker_one 2 checkboxQuestions workerOneSample workerTwoSample
     sameTaskSample (by decide)⟩

/-! ## The body of the traversal, by question type -/

theorem isAnswerType_iff (t : String) :
    isAnswerType t = true ↔
      t = "radio" ∨ t = "select_list" ∨ t = "checkbox" ∨ t = "text" ∨ t = "slider" := by
  simp [isAnswerType, or_assoc]

theorem isDisplayType_eq_false_of_isAnswerType (t : String) (h : isAnswerType t = true) :
    isDisplayType t = false := by
  rw [isAnswerType_iff] at h
  rcases h with h | h | h | h | h <;> subst h <;> decide

theorem retrieveItemsBody_eq_none (question : Item) (task_worker : List TaskWorker)
    (st : LoopState ReviewItem) (ht : isAnswerType question.type = true)
    (hr : resultAt task_worker st.index = none) :
    retrieveItemsBody question task_worker st = none := by
  have hd := isDisplayType_eq_false_of_isAnswerType _ ht
  rw [isAnswerType_iff] at ht
  unfold retrieveItemsBody
  rw [hd]
  rcases ht with h | h | h | h | h <;> simp [h, hr]

theorem retrieveItemsSameTaskBody_eq_none (question : Item)
    (task_worker_one task_worker_two : List TaskWorker)
    (st : LoopState ReviewItemSameTask) (ht : isAnswerType question.type = true)
    (hr : resultAt task_worker_one st.index = none ∨ resultAt task_worker_two st.index = none) :
    retrieveItemsSameTaskBody question task_worker_one task_worker_two st = none := by
  have hd := isDisplayType_eq_false_of_isAnswerType _ ht
  rw [isAnswerType_iff] at ht
  unfold retrieveItemsSameTaskBody
  rw [hd]
  rcases hr with hr | hr <;>
    rcases ht with h | h | h | h | h <;> simp [h, hr]

theorem retrieveItemsBody_i (question : Item) (task_worker : List TaskWorker)
    (st st1 : LoopState ReviewItem) (ht : question.type ≠ "checkbox")
    (h : retrieveItemsBody question task_worker st = some st1) : st1.i = st.i := by
  unfold retrieveItemsBody at h
  split_ifs at h
  all_goals first
    | (simp only [Option.some.injEq] at h; subst h; rfl)
    | (split at h <;> first | (simp only [Option.some.injEq] at h; subst h; rfl) | simp at h)

theorem retrieveItemsBody_display (question : Item) (task_worker : List TaskWorker)
    (st st1 : LoopState ReviewItem) (ht : isDisplayType question.type = true)
    (h : retrieveItemsBody question task_worker st = some st1) :
    ∃ x, st1.items = st.items ++ [x] ∧ st1.index = st.index + 1 := by
  unfold retrieveItemsBody at h
  rw [if_pos ht] at h
  split at h
  · simp at h
  · simp only [Option.some.injEq] at h
    subst h
    exact ⟨_, rfl, rfl⟩

theorem retrieveItemsBody_answer (question : Item) (task_worker : List TaskWorker)
    (st st1 : LoopState ReviewItem)
    (ht : question.type = "radio" ∨ question.type = "select_list" ∨ question.type = "text" ∨
      question.type = "slider")
    (h : retrieveItemsBody question task_worker st = some st1) :
    ∃ x r, st1.items = st.items ++ [x] ∧ st1.index = st.index ∧ x.type = question.type ∧
      resultAt task_worker st.index = some r ∧ x.task_worker_answer = some r := by
  unfold retrieveItemsBody at h
  rcases ht with ht | ht | ht | ht <;>
    simp only [ht, isDisplayType] at h <;>
    simp at h <;>
    split at h <;>
    first
      | (simp only [Option.some.injEq] at h; subst h; simp_all)
      | simp at h

theorem retrieveItemsBody_other (question : Item) (task_worker : List TaskWorker)
    (st : LoopState ReviewItem) (hd : isDisplayType question.type = false)
    (ha : isAnswerType question.type = false) :
    retrieveItemsBody question task_worker st = some st := by
  unfold retrieveItemsBody
  simp only [isAnswerType, Bool.or_eq_false_iff, decide_eq_false_iff_not] at ha
  simp [hd, ha]

theorem retrieveItemsSameTaskBody_i (question : Item)
    (task_worker_one task_worker_two : List TaskWorker)
    (st st1 : LoopState ReviewItemSameTask) (ht : question.type ≠ "checkbox")
    (h : retrieveItemsSameTaskBody question task_worker_one task_worker_two st = some st1) :
    st1.i = st.i := by
  unfold retrieveItemsSameTaskBody at h
  split_ifs at h
  all_goals first
    | (simp only [Option.some.injEq] at h; subst h; rfl)
    | (split at h <;> first | (simp only [Option.some.injEq] at h; subst h; rfl) | simp at h)

theorem getElem?_append_at_length (pre rest : List Item) (n : Nat) (h : n = pre.length) :
    (pre ++ rest)[n]? = rest.head? := by
  subst h
  rw [List.getElem?_append_right (Nat.le_refl _), Nat.sub_self]
  cases rest <;> simp

/-! ## Templates without checkbox questions -/

theorem retrieveItemsLoop_ne_running (questions : List Item) (task_worker : List TaskWorker)
    (rest : List Item) :
    ∀ (pre : List Item) (fuel : Nat) (st : LoopState ReviewItem),
      questions = pre ++ rest → st.i = pre.length → (∀ q ∈ rest, q.type ≠ "checkbox") →
      rest.length < fuel → retrieveItemsLoop questions task_worker fuel st ≠ .running := by
  induction rest with
  | nil =>
    intro pre fuel st hq hi _ hf
    obtain ⟨f, rfl⟩ : ∃ f, fuel = f + 1 := ⟨fuel - 1, by simp at hf; omega⟩
    have h0 := getElem?_append_at_length pre [] _ hi
    rw [← hq] at h0
    simp [retrieveItemsLoop, h0]
  | cons q0 rest ih =>
    intro pre fuel st hq hi hno hf
    obtain ⟨f, rfl⟩ : ∃ f, fuel = f + 1 := ⟨fuel - 1, by simp at hf; omega⟩
    simp only [retrieveItemsLoop, hq, getElem?_append_at_length _ _ _ hi, List.head?_cons]
    cases hb : retrieveItemsBody q0 task_worker st with
    | none => simp
    | some st1 =>
      simp only
      have h1 := retrieveItemsBody_i _ _ _ _ (hno q0 (List.mem_cons_self _ _)) hb
      rw [← hq]
      apply ih (pre ++ [q0]) f
      · simp [hq]
      · simp [h1, hi]
      · exact fun q hm => hno q (List.mem_cons_of_mem _ hm)
      · simpa using hf

theorem retrieveItemsLoop_linear (questions : List Item) (task_worker : List TaskWorker)
    (fuel : Nat) :
    ∀ (pre rest : List Item) (st : LoopState ReviewItem) (items : List ReviewItem),
      questions = pre ++ rest → st.i = pre.length → (∀ q ∈ rest, q.type ≠ "checkbox") →
      retrieveItemsLoop questions task_worker fuel st = .returned items →
      ∃ suffix, items = st.items ++ suffix ∧
        ∀ (p : Nat) (q : Item), rest[p]? = some q →
          (q.type = "radio" ∨ q.type = "select_list" ∨ q.type = "text" ∨ q.type = "slider") →
          ∃ item r, suffix[emittedCount (rest.take p)]? = some item ∧ item.type = q.type ∧
            resultAt task_worker (st.index + displayCount (rest.take p)) = some r ∧
            item.task_worker_answer = some r := by
  induction fuel with
  | zero =>
    intro pre rest st items _ _ _ h
    simp [retrieveItemsLoop] at h
  | succ fuel ih =>
    intro pre rest st items hq hi hno h
    simp only [retrieveItemsLoop, hq, getElem?_append_at_length _ _ _ hi] at h
    cases rest with
    | nil =>
      simp only [List.head?_nil, Outcome.returned.injEq] at h
      exact ⟨[], by simp [h], by simp⟩
    | cons q0 rest =>
      simp only [List.head?_cons] at h
      cases hb : retrieveItemsBody q0 task_worker st with
      | none => simp [hb] at h
      | some st1 =>
        simp only [hb] at h
        rw [← hq] at h
        have h1 := retrieveItemsBody_i _ _ _ _ (hno q0 (List.mem_cons_self _ _)) hb
        obtain ⟨suffix1, hs1, hp1⟩ := ih (pre ++ [q0]) rest { st1 with i := st1.i + 1 } items
          (by simp [hq]) (by simp [h1, hi]) (fun q hm => hno q (List.mem_cons_of_mem _ hm)) h
        simp only at hs1 hp1
        by_cases hd : isDisplayType q0.type = true
        · -- a display question: one item, the answer index moves on
          obtain ⟨x, hx, hix⟩ := retrieveItemsBody_display _ _ _ _ hd hb
          refine ⟨x :: suffix1, by simp [hs1, hx], ?_⟩
          intro p q hpq ht
          cases p with
          | zero =>
            simp only [List.getElem?_cons_zero, Option.some.injEq] at hpq
            subst hpq
            rcases ht with ht | ht | ht | ht <;> simp [ht, isDisplayType] at hd
          | succ p =>
            simp only [List.getElem?_cons_succ] at hpq
            obtain ⟨item, r, e1, e2, e3, e4⟩ := hp1 p q hpq ht
            refine ⟨item, r, ?_, e2, ?_, e4⟩
            · simpa [emittedCount, List.take_succ_cons, List.countP_cons, hd] using e1
            · rw [hix] at e3
              simpa [displayCount, List.take_succ_cons, List.countP_cons, hd, Nat.add_assoc,
                Nat.add_comm 1] using e3
        · by_cases ha : isAnswerType q0.type = true
          · -- an answer question other than a checkbox: one item, same answer index
            have ht0 : q0.type = "radio" ∨ q0.type = "select_list" ∨ q0.type = "text" ∨
                q0.type = "slider" := by
              have := (isAnswerType_iff _).1 ha
              have hc := hno q0 (List.mem_cons_self _ _)
              tauto
            obtain ⟨x, r0, hx, hix, hxt, hr0, hxa⟩ := retrieveItemsBody_answer _ _ _ _ ht0 hb
            refine ⟨x :: suffix1, by simp [hs1, hx], ?_⟩
            intro p q hpq ht
            cases p with
            | zero =>
              simp only [List.getElem?_cons_zero, Option.some.injEq] at hpq
              subst hpq
              exact ⟨x, r0, by simp [emittedCount], hxt, by simpa [displayCount] using hr0, hxa⟩
            | succ p =>
              simp only [List.getElem?_cons_succ] at hpq
              obtain ⟨item, r, e1, e2, e3, e4⟩ := hp1 p q hpq ht
              refine ⟨item, r, ?_, e2, ?_, e4⟩
              · simpa [emittedCount, List.take_succ_cons, List.countP_cons, hd, ha] using e1
              · rw [hix] at e3
                simpa [displayCount, List.take_succ_cons, List.countP_cons, hd] using e3
          · -- an unrecognised type: nothing is pushed
            simp only [Bool.not_eq_true] at hd ha
            rw [retrieveItemsBody_other _ _ _ hd ha, Option.some.injEq] at hb
            subst hb
            refine ⟨suffix1, hs1, ?_⟩
            intro p q hpq ht
            cases p with
            | zero =>
              simp only [List.getElem?_cons_zero, Option.some.injEq] at hpq
              subst hpq
              have : isAnswerType q0.type = true := by
                rw [isAnswerType_iff]; tauto
              simp [ha] at this
            | succ p =>
              simp only [List.getElem?_cons_succ] at hpq
              obtain ⟨item, r, e1, e2, e3, e4⟩ := hp1 p q hpq ht
              refine ⟨item, r, ?_, e2, ?_, e4⟩
              · simpa [emittedCount, List.take_succ_cons, List.countP_cons, hd, ha] using e1
              · simpa [displayCount, List.take_succ_cons, List.countP_cons, hd] using e3

/-- C18: which answer is read.  For a question list without checkbox
questions, `retrieveItems` ends (with a list or a `TypeError`) within
`questions.length + 1` loop tests, and when it returns, the item pushed for a
radio, select_list, text or slider question at index `p` carries
`results[n].result`, where `n` is the number of instructions, image, audio
and iframe questions before `p`. -/
theorem answer_index_counts_display_questions (questions : List Item)
    (task_worker : List TaskWorker) (hno : ∀ q ∈ questions, q.type ≠ "checkbox") :
    (∀ fuel, questions.length < fuel →
      retrieveItems fuel questions task_worker ≠ .running) ∧
    ∀ (fuel : Nat) (items : List ReviewItem),
      retrieveItems fuel questions task_worker = .returned items →
      ∀ (p : Nat) (q : Item), questions[p]? = some q →
        (q.type = "radio" ∨ q.type = "select_list" ∨ q.type = "text" ∨ q.type = "slider") →
        ∃ item r, items[emittedCount (questions.take p)]? = some item ∧ item.type = q.type ∧
          resultAt task_worker (displayCount (questions.take p)) = some r ∧
          item.task_worker_answer = some r := by
  constructor
  · intro fuel hf
    exact retrieveItemsLoop_ne_running questions task_worker questions [] fuel _ rfl rfl hno hf
  · intro fuel items h p q hpq ht
    obtain ⟨suffix, hs, hp⟩ := retrieveItemsLoop_linear questions task_worker fuel [] questions
      { i := 0, index := 0, items := [] } items rfl rfl hno h
    simp only [List.nil_append] at hs
    subst hs
    simpa using hp p q hpq ht

/-- C18, at an instructions question followed by a text question: the text
question at index `1` shows `results[1]`. -/
theorem answer_index_counts_display_questions_witness :
    (∀ q ∈ instructionsTextQuestions, q.type ≠ "checkbox") ∧
    retrieveItems 3 instructionsTextQuestions instructionsTextWorker
      = .returned instructionsTextItems ∧
    ∃ item r, instructionsTextItems[emittedCount (instructionsTextQuestions.take 1)]?
        = some item ∧ item.type = "text" ∧
      resultAt instructionsTextWorker (displayCount (instructionsTextQuestions.take 1))
        = some r ∧
      item.task_worker_answer = some r :=
  ⟨by decide, by decide,
   (answer_index_counts_display_questions instructionsTextQuestions instructionsTextWorker
      (by decide)).2 3 instructionsTextItems (by decide) 1
      { type := "text", aux_attributes := { question := some "Why" } } (by decide)
      (Or.inr (Or.inr (Or.inl rfl)))⟩

/-! ## A missing record -/

theorem retrieveItemsLoop_typeError_of_no_record (questions : List Item)
    (task_worker : List TaskWorker) (hempty : ∀ n, resultAt task_worker n = none)
    (rest : List Item) :
    ∀ (pre : List Item) (fuel : Nat) (st : LoopState ReviewItem),
      questions = pre ++ rest → st.i = pre.length →
      (∃ q ∈ rest, isAnswerType q.type = true) →
      rest.length ≤ fuel → retrieveItemsLoop questions task_worker (fuel + 1) st = .typeError := by
  induction rest with
  | nil =>
    intro pre fuel st _ _ hex _
    simp at hex
  | cons q0 rest ih =>
    intro pre fuel st hq hi hex hf
    simp only [retrieveItemsLoop, hq, getElem?_append_at_length _ _ _ hi, List.head?_cons]
    by_cases ha : isAnswerType q0.type = true
    · rw [retrieveItemsBody_eq_none _ _ _ ha (hempty _)]
    · cases hb : retrieveItemsBody q0 task_worker st with
      | none => rfl
      | some st1 =>
        simp only
        have hc : q0.type ≠ "checkbox" := by
          intro hc
          exact ha (by rw [isAnswerType_iff]; tauto)
        have h1 := retrieveItemsBody_i _ _ _ _ hc hb
        obtain ⟨f, rfl⟩ : ∃ f, fuel = f + 1 := by
          obtain ⟨q, hm, hqa⟩ := hex
          rcases List.mem_cons.1 hm with rfl | hm
          · exact absurd hqa ha
          · have := List.length_pos_of_mem hm
            simp only [List.length_cons] at hf
            exact ⟨fuel - 1, by omega⟩
        rw [← hq]
        apply ih (pre ++ [q0]) f
        · simp [hq]
        · simp [h1, hi]
        · obtain ⟨q, hm, hqa⟩ := hex
          rcases List.mem_cons.1 hm with rfl | hm
          · exact absurd hqa ha
          · exact ⟨q, hm, hqa⟩
        · simpa using hf

theorem retrieveItemsSameTaskLoop_typeError_of_no_record (questions : List Item)
    (task_worker_one task_worker_two : List TaskWorker)
    (hempty : (∀ n, resultAt task_worker_one n = none) ∨
      (∀ n, resultAt task_worker_two n = none))
    (rest : List Item) :
    ∀ (pre : List Item) (fuel : Nat) (st : LoopState ReviewItemSameTask),
      questions = pre ++ rest → st.i = pre.length →
      (∃ q ∈ rest, isAnswerType q.type = true) →
      rest.length ≤ fuel →
      retrieveItemsSameTaskLoop questions task_worker_one task_worker_two (fuel + 1) st
        = .typeError := by
  induction rest with
  | nil =>
    intro pre fuel st _ _ hex _
    simp at hex
  | cons q0 rest ih =>
    intro pre fuel st hq hi hex hf
    simp only [retrieveItemsSameTaskLoop, hq, getElem?_append_at_length _ _ _ hi,
      List.head?_cons]
    by_cases ha : isAnswerType q0.type = true
    · rw [retrieveItemsSameTaskBody_eq_none _ _ _ _ ha
        (hempty.imp (fun h => h _) (fun h => h _))]
    · cases hb : retrieveItemsSameTaskBody q0 task_worker_one task_worker_two st with
      | none => rfl
      | some st1 =>
        simp only
        have hc : q0.type ≠ "checkbox" := by
          intro hc
          exact ha (by rw [isAnswerType_iff]; tauto)
        have h1 := retrieveItemsSameTaskBody_i _ _ _ _ _ hc hb
        obtain ⟨f, rfl⟩ : ∃ f, fuel = f + 1 := by
          obtain ⟨q, hm, hqa⟩ := hex
          rcases List.mem_cons.1 hm with rfl | hm
          · exact absurd hqa ha
          · have := List.length_pos_of_mem hm
            simp only [List.length_cons] at hf
            exact ⟨fuel - 1, by omega⟩
        rw [← hq]
        apply ih (pre ++ [q0]) f
        · simp [hq]
        · simp [h1, hi]
        · obtain ⟨q, hm, hqa⟩ := hex
          rcases List.mem_cons.1 hm with rfl | hm
          · exact absurd hqa ha
          · exact ⟨q, hm, hqa⟩
        · simpa using hf

/-- C15: on two text questions and a worker with a single record,
`retrieveItems` does not fail: it returns a list of two items, both showing
that record, although there are fewer records than answer-consuming
questions; `retrieveItemsSameTask` with that worker as the second one returns
as well.  The second question reads `results[0]` again because `index` is not
advanced by an answer-consuming question. -/
theorem retrieveItems_short_results_returns :
    oneRecordWorker.head?.map (fun w => w.results.length) = some 1 ∧
    (twoTextQuestions.filter (fun q => isAnswerType q.type)).length = 2 ∧
    retrieveItems 3 twoTextQuestions oneRecordWorker =
      .returned
        [{ question := "First", type := "text", task_worker_answer := some (.str "only") },
         { question := "Second", type := "text", task_worker_answer := some (.str "only") }] ∧
    retrieveItemsSameTask 3 twoTextQuestions twoRecordWorker oneRecordWorker =
      .returned
        [{ question := "First", type := "text", task_worker_one_answer := some (.str "one"),
           task_worker_two_answer := some (.str "only") },
         { question := "Second", type := "text", task_worker_one_answer := some (.str "one"),
           task_worker_two_answer := some (.str "only") }] := by
  decide

/-- A missing record makes the traversal throw.  Whenever the
traversal is at an answer-consuming question and there is no record at the
answer index (for `retrieveItemsSameTask`: in either worker's results), the
next step throws a `TypeError`.  In particular, when a worker has no record
at all and the template has an answer-consuming question, `retrieveItems`
(and `retrieveItemsSameTask` with that worker in either place) throws with
every budget of more than `questions.length` loop tests and returns a list
with none. -/
theorem missing_record_throws (questions : List Item)
    (task_worker other : List TaskWorker) :
    (∀ (fuel : Nat) (st : LoopState ReviewItem) (q : Item), questions[st.i]? = some q →
      isAnswerType q.type = true → resultAt task_worker st.index = none →
      retrieveItemsLoop questions task_worker (fuel + 1) st = .typeError) ∧
    (∀ (fuel : Nat) (st : LoopState ReviewItemSameTask) (q : Item), questions[st.i]? = some q →
      isAnswerType q.type = true → resultAt task_worker st.index = none →
      retrieveItemsSameTaskLoop questions task_worker other (fuel + 1) st = .typeError ∧
      retrieveItemsSameTaskLoop questions other task_worker (fuel + 1) st = .typeError) ∧
    ((∃ q ∈ questions, isAnswerType q.type = true) → (∀ n, resultAt task_worker n = none) →
      (∀ fuel, questions.length < fuel →
        retrieveItems fuel questions task_worker = .typeError ∧
        retrieveItemsSameTask fuel questions task_worker other = .typeError ∧
        retrieveItemsSameTask fuel questions other task_worker = .typeError) ∧
      (∀ fuel items, retrieveItems fuel questions task_worker ≠ .returned items) ∧
      (∀ fuel items, retrieveItemsSameTask fuel questions task_worker other
        ≠ .returned items) ∧
      (∀ fuel items, retrieveItemsSameTask fuel questions other task_worker
        ≠ .returned items)) := by
  refine ⟨?_, ?_, ?_⟩
  · intro fuel st q hq ha hr
    simp [retrieveItemsLoop, hq, retrieveItemsBody_eq_none _ _ _ ha hr]
  · intro fuel st q hq ha hr
    constructor
    · simp [retrieveItemsSameTaskLoop, hq,
        retrieveItemsSameTaskBody_eq_none _ _ _ _ ha (Or.inl hr)]
    · simp [retrieveItemsSameTaskLoop, hq,
        retrieveItemsSameTaskBody_eq_none _ _ _ _ ha (Or.inr hr)]
  · intro hex hempty
    have key : ∀ fuel, questions.length < fuel →
        retrieveItems fuel questions task_worker = .typeError ∧
        retrieveItemsSameTask fuel questions task_worker other = .typeError ∧
        retrieveItemsSameTask fuel questions other task_worker = .typeError := by
      intro fuel hf
      obtain ⟨f, rfl⟩ : ∃ f, fuel = f + 1 := ⟨fuel - 1, by omega⟩
      exact ⟨retrieveItemsLoop_typeError_of_no_record questions task_worker hempty questions
          [] f _ rfl rfl hex (by omega),
        retrieveItemsSameTaskLoop_typeError_of_no_record questions task_worker other
          (Or.inl hempty) questions [] f _ rfl rfl hex (by omega),
        retrieveItemsSameTaskLoop_typeError_of_no_record questions other task_worker
          (Or.inr hempty) questions [] f _ rfl rfl hex (by omega)⟩
    refine ⟨key, ?_, ?_, ?_⟩
    · intro fuel items h
      have h1 := retrieveItemsLoop_mono _ _ fuel (questions.length + 1) _ _ h
      have h2 := (key (fuel + (questions.length + 1)) (by omega)).1
      unfold retrieveItems at h2
      rw [h1] at h2
      exact Outcome.noConfusion h2
    · intro fuel items h
      have h1 := retrieveItemsSameTaskLoop_mono _ _ _ fuel (questions.length + 1) _ _ h
      have h2 := (key (fuel + (questions.length + 1)) (by omega)).2.1
      unfold retrieveItemsSameTask at h2
      rw [h1] at h2
      exact Outcome.noConfusion h2
    · intro fuel items h
      have h1 := retrieveItemsSameTaskLoop_mono _ _ _ fuel (questions.length + 1) _ _ h
      have h2 := (key (fuel + (questions.length + 1)) (by omega)).2.2
      unfold retrieveItemsSameTask at h2
      rw [h1] at h2
      exact Outcome.noConfusion h2

/-! ## Characters of a plain name -/

theorem plainChar_facts (c : Char) (h : (c.isAlphanum || c = Char.ofNat 95) = true) :
    isJsSpace c = false ∧ c ≠ lbrace ∧ c ≠ rbrace := by
  have hr : (48 ≤ c.toNat ∧ c.toNat ≤ 57) ∨ (65 ≤ c.toNat ∧ c.toNat ≤ 90) ∨
      (97 ≤ c.toNat ∧ c.toNat ≤ 122) ∨ c.toNat = 95 := by
    simp only [Bool.or_eq_true, decide_eq_true_eq] at h
    rcases h with h | h
    · simp only [Char.isAlphanum, Char.isAlpha, Char.isUpper, Char.isLower, Char.isDigit,
        Bool.or_eq_true, Bool.and_eq_true, decide_eq_true_eq, ge_iff_le] at h
      simp only [UInt32.le_def, BitVec.le_def] at h
      have e48 : (48 : UInt32).toBitVec.toNat = 48 := by decide
      have e57 : (57 : UInt32).toBitVec.toNat = 57 := by decide
      have e65 : (65 : UInt32).toBitVec.toNat = 65 := by decide
      have e90 : (90 : UInt32).toBitVec.toNat = 90 := by decide
      have e97 : (97 : UInt32).toBitVec.toNat = 97 := by decide
      have e122 : (122 : UInt32).toBitVec.toNat = 122 := by decide
      rw [e48, e57, e65, e90, e97, e122] at h
      have ec : c.toNat = c.val.toBitVec.toNat := rfl
      rw [ec]
      omega
    · subst h
      right; right; right
      decide
  refine ⟨?_, ?_, ?_⟩
  · simp only [isJsSpace, Bool.or_eq_false_iff, Bool.and_eq_false_iff, decide_eq_false_iff_not]
    omega
  · intro e
    subst e
    have : lbrace.toNat = 123 := by decide
    omega
  · intro e
    subst e
    have : rbrace.toNat = 125 := by decide
    omega

theorem isPlainName_facts (name : List Char) (h : isPlainName name = true) :
    name ≠ [] ∧ ∀ c ∈ name, isJsSpace c = false ∧ c ≠ lbrace ∧ c ≠ rbrace := by
  simp only [isPlainName, Bool.and_eq_true, Bool.not_eq_true', List.isEmpty_eq_false,
    List.all_eq_true] at h
  refine ⟨?_, fun c hc => plainChar_facts c (h.2 c hc)⟩
  intro e
  simp [e] at h

/-! ## Whitespace normalisation -/

theorem collapseSpaces_collapseSpaces (b1 b : Bool) (v : List Char) :
    collapseSpaces b1 (collapseSpaces b v) = collapseSpaces (b1 || b) v := by
  induction v generalizing b1 b with
  | nil => simp [collapseSpaces]
  | cons c v ih =>
    by_cases hc : isJsSpace c = true
    · have hsp : isJsSpace ' ' = true := by decide
      cases b <;> cases b1 <;> simp [collapseSpaces, hc, hsp, ih]
    · cases b <;> cases b1 <;> simp [collapseSpaces, hc, ih]

theorem dropWhile_collapseSpaces_true (v : List Char) :
    (collapseSpaces true v).dropWhile isJsSpace = collapseSpaces true v := by
  induction v with
  | nil => simp [collapseSpaces]
  | cons c v ih =>
    by_cases hc : isJsSpace c = true
    · simp [collapseSpaces, hc, ih]
    · simp [collapseSpaces, hc, List.dropWhile_cons]

theorem dropWhile_collapseSpaces_false (v : List Char) :
    (collapseSpaces false v).dropWhile isJsSpace = collapseSpaces true v := by
  cases v with
  | nil => simp [collapseSpaces]
  | cons c v =>
    have hsp : isJsSpace ' ' = true := by decide
    by_cases hc : isJsSpace c = true
    · simp [collapseSpaces, hc, List.dropWhile_cons, hsp, dropWhile_collapseSpaces_true]
    · simp [collapseSpaces, hc, List.dropWhile_cons]

theorem trimSpaces_collapseSpaces (v : List Char) :
    trimSpaces (collapseSpaces false v) = (collapseSpaces true v).rdropWhile isJsSpace := by
  unfold trimSpaces
  rw [dropWhile_collapseSpaces_false]

theorem collapseSpaces_append (b : Bool) (y z : List Char) :
    ∃ f, collapseSpaces b (y ++ z) = collapseSpaces b y ++ collapseSpaces f z := by
  induction y generalizing b with
  | nil => exact ⟨b, by simp [collapseSpaces]⟩
  | cons c y ih =>
    by_cases hc : isJsSpace c = true
    · obtain ⟨f, hf⟩ := ih true
      exact ⟨f, by cases b <;> simp [collapseSpaces, hc, hf]⟩
    · obtain ⟨f, hf⟩ := ih false
      exact ⟨f, by simp [collapseSpaces, hc, hf]⟩

theorem collapseSpaces_of_no_space (f : Bool) (w : List Char)
    (hw : ∀ c ∈ w, isJsSpace c = false) : collapseSpaces f w = w := by
  induction w generalizing f with
  | nil => simp [collapseSpaces]
  | cons c w ih =>
    have hc := hw c (List.mem_cons_self _ _)
    simp [collapseSpaces, hc, ih false (fun d hd => hw d (List.mem_cons_of_mem _ hd))]

theorem length_collapseSpaces_le (b : Bool) (v : List Char) :
    (collapseSpaces b v).length ≤ v.length := by
  induction v generalizing b with
  | nil => simp [collapseSpaces]
  | cons c v ih =>
    by_cases hc : isJsSpace c = true
    · cases b
      · simpa [collapseSpaces, hc] using ih true
      · have := ih true
        simp only [collapseSpaces, hc, if_true, List.length_cons]
        omega
    · simpa [collapseSpaces, hc] using ih false

theorem collapseSpaces_prefix_fixed (v y z : List Char)
    (h : collapseSpaces true v = y ++ z) : collapseSpaces true y = y := by
  have h1 : collapseSpaces true (y ++ z) = y ++ z := by
    rw [← h, collapseSpaces_collapseSpaces, Bool.or_self]
  obtain ⟨f, hf⟩ := collapseSpaces_append true y z
  rw [hf] at h1
  have hy := length_collapseSpaces_le true y
  have hz := length_collapseSpaces_le f z
  have hlen := congrArg List.length h1
  simp only [List.length_append] at hlen
  exact (List.append_inj h1 (by omega)).1

theorem normalize_idempotent (v : List Char) :
    trimSpaces (collapseSpaces false (trimSpaces (collapseSpaces false v)))
      = trimSpaces (collapseSpaces false v) := by
  rw [trimSpaces_collapseSpaces, trimSpaces_collapseSpaces]
  obtain ⟨t, ht⟩ := List.rdropWhile_prefix isJsSpace (l := collapseSpaces true v)
  rw [collapseSpaces_prefix_fixed v _ t ht.symm, List.rdropWhile_idempotent]

theorem normalize_append_space (v : List Char) :
    trimSpaces (collapseSpaces false (collapseSpaces true v ++ [' ']))
      = trimSpaces (collapseSpaces false v) := by
  rw [trimSpaces_collapseSpaces, trimSpaces_collapseSpaces]
  obtain ⟨f, hf⟩ := collapseSpaces_append true (collapseSpaces true v) [' ']
  rw [hf, collapseSpaces_collapseSpaces, Bool.or_self]
  have hsp : isJsSpace ' ' = true := by decide
  cases f
  · simp only [collapseSpaces, hsp, if_true, Bool.false_eq_true, if_false]
    exact List.rdropWhile_concat_pos _ _ _ hsp
  · simp [collapseSpaces, hsp]

/-! ## The placeholder pattern -/

theorem expectChars_eq_some (c : Char) (k : Nat) (s r : List Char) :
    expectChars c k s = some r ↔ s = List.replicate k c ++ r := by
  induction k generalizing s with
  | zero => simp [expectChars, eq_comm]
  | succ k ih =>
    cases s with
    | nil => simp [expectChars, List.replicate_succ]
    | cons d s =>
      by_cases hd : d = c
      · simp [expectChars, hd, ih, List.replicate_succ]
      · simp [expectChars, hd, List.replicate_succ]

theorem expectName_eq_some (name s r : List Char) :
    expectName name s = some r ↔ s = name ++ r := by
  induction name generalizing s with
  | nil => simp [expectName, eq_comm]
  | cons a name ih =>
    cases s with
    | nil => simp [expectName]
    | cons d s =>
      by_cases hd : d = a
      · simp [expectName, hd, ih]
      · simp [expectName, hd]

theorem dropWhile_spaces_append (w y : List Char) (hw : ∀ c ∈ w, isJsSpace c = true)
    (hy : ∀ c ∈ y.head?, isJsSpace c = false) :
    (w ++ y).dropWhile isJsSpace = y := by
  rw [List.dropWhile_append_of_pos hw]
  cases y with
  | nil => rfl
  | cons c y =>
    have := hy c (by simp)
    simp [List.dropWhile_cons, this]

theorem matchPlaceholder_of_eq (braces : Nat) (name w1 w2 rem : List Char)
    (hb : 0 < braces) (hname : isPlainName name = true)
    (hw1 : ∀ c ∈ w1, isJsSpace c = true) (hw2 : ∀ c ∈ w2, isJsSpace c = true) :
    matchPlaceholder braces name
      (List.replicate braces lbrace ++ (w1 ++ (name ++ (w2 ++
        (List.replicate braces rbrace ++ rem))))) = some rem := by
  obtain ⟨hne, hch⟩ := isPlainName_facts name hname
  unfold matchPlaceholder
  rw [(expectChars_eq_some _ _ _ _).2 rfl]
  simp only
  rw [dropWhile_spaces_append w1 _ hw1 (by
    cases name with
    | nil => exact absurd rfl hne
    | cons a name =>
      intro c hc
      simp only [List.cons_append, List.head?_cons, Option.mem_def, Option.some.injEq] at hc
      subst hc
      exact (hch _ (List.mem_cons_self _ _)).1)]
  rw [(expectName_eq_some _ _ _).2 rfl]
  simp only
  rw [dropWhile_spaces_append w2 _ hw2 (by
    obtain ⟨k, rfl⟩ : ∃ k, braces = k + 1 := ⟨braces - 1, by omega⟩
    intro c hc
    simp only [List.replicate_succ, List.cons_append, List.head?_cons, Option.mem_def,
      Option.some.injEq] at hc
    subst hc
    decide)]
  exact (expectChars_eq_some _ _ _ _).2 rfl

theorem eq_of_matchPlaceholder (braces : Nat) (name s rem : List Char)
    (h : matchPlaceholder braces name s = some rem) :
    ∃ w1 w2, (∀ c ∈ w1, isJsSpace c = true) ∧ (∀ c ∈ w2, isJsSpace c = true) ∧
      s = List.replicate braces lbrace ++ (w1 ++ (name ++ (w2 ++
        (List.replicate braces rbrace ++ rem)))) := by
  unfold matchPlaceholder at h
  cases h1 : expectChars lbrace braces s with
  | none => simp [h1] at h
  | some s1 =>
    simp only [h1] at h
    cases h2 : expectName name (s1.dropWhile isJsSpace) with
    | none => simp [h2] at h
    | some s2 =>
      simp only [h2] at h
      rw [expectChars_eq_some] at h1 h
      rw [expectName_eq_some] at h2
      refine ⟨s1.takeWhile isJsSpace, s2.takeWhile isJsSpace,
        fun c hc => List.mem_takeWhile_imp hc, fun c hc => List.mem_takeWhile_imp hc, ?_⟩
      have e1 : s1.takeWhile isJsSpace ++ s1.dropWhile isJsSpace = s1 :=
        List.takeWhile_append_dropWhile _ _
      have e2 : s2.takeWhile isJsSpace ++ s2.dropWhile isJsSpace = s2 :=
        List.takeWhile_append_dropWhile _ _
      rw [h1, ← h, e2, ← h2, e1]

theorem searchPlaceholder_of_match (braces : Nat) (name t rem : List Char)
    (h : matchPlaceholder braces name t = some rem) :
    searchPlaceholder braces name t = true := by
  cases t <;> simp [searchPlaceholder, h]

theorem searchPlaceholder_append (braces : Nat) (name u t : List Char)
    (h : searchPlaceholder braces name t = true) :
    searchPlaceholder braces name (u ++ t) = true := by
  induction u with
  | nil => exact h
  | cons c u ih => simp [searchPlaceholder, ih]

theorem matchPlaceholder_eq_none_of_search (braces : Nat) (name u t : List Char)
    (h : searchPlaceholder braces name (u ++ t) = false) :
    matchPlaceholder braces name t = none := by
  cases hm : matchPlaceholder braces name t with
  | none => rfl
  | some rem =>
    rw [searchPlaceholder_append _ _ _ _ (searchPlaceholder_of_match _ _ _ _ hm)] at h
    exact absurd h (by simp)

theorem replacePlaceholders_of_no_match (braces : Nat) (name : List Char) (fuel : Nat)
    (s : List Char) (h : searchPlaceholder braces name s = false) :
    replacePlaceholders braces name fuel s = s := by
  induction fuel generalizing s with
  | zero => rfl
  | succ fuel ih =>
    cases s with
    | nil => rfl
    | cons c s =>
      simp only [searchPlaceholder, Bool.or_eq_false_iff] at h
      have hm : matchPlaceholder braces name (c :: s) = none := by
        cases hm : matchPlaceholder braces name (c :: s) with
        | none => rfl
        | some r => simp [hm] at h
      simp [replacePlaceholders, hm, ih s h.2]

/-! ## A placeholder appended to a text -/

theorem expectName_append_brace (name x rest s2 : List Char)
    (hch : ∀ c ∈ name, c ≠ lbrace)
    (h : expectName name (x ++ lbrace :: rest) = some s2) :
    ∃ s3, expectName name x = some s3 ∧ s2 = s3 ++ lbrace :: rest := by
  induction name generalizing x with
  | nil =>
    simp only [expectName, Option.some.injEq] at h
    exact ⟨x, rfl, h.symm⟩
  | cons a name ih =>
    cases x with
    | nil =>
      have : lbrace ≠ a := fun e => hch a (List.mem_cons_self _ _) e.symm
      simp [expectName, this] at h
    | cons d x =>
      by_cases hd : d = a
      · simp only [List.cons_append, expectName, hd, if_true] at h ⊢
        exact ih x (fun c hc => hch c (List.mem_cons_of_mem _ hc)) h
      · simp [expectName, hd] at h

theorem expectChars_rbrace_append_brace (k : Nat) (y rest rem : List Char)
    (h : expectChars rbrace k (y ++ lbrace :: rest) = some rem) :
    ∃ rem1, expectChars rbrace k y = some rem1 ∧ rem = rem1 ++ lbrace :: rest := by
  induction k generalizing y with
  | zero =>
    simp only [expectChars, Option.some.injEq] at h
    exact ⟨y, rfl, h.symm⟩
  | succ k ih =>
    cases y with
    | nil =>
      have : lbrace ≠ rbrace := by decide
      simp [expectChars, this] at h
    | cons d y =>
      by_cases hd : d = rbrace
      · simp only [List.cons_append, expectChars, hd, if_true] at h ⊢
        exact ih y h
      · simp [expectChars, hd] at h

theorem dropWhile_append_brace (x rest : List Char) :
    (x ++ lbrace :: rest).dropWhile isJsSpace = x.dropWhile isJsSpace ++ lbrace :: rest := by
  have hl : isJsSpace lbrace = false := by decide
  rw [List.dropWhile_append]
  split
  · rename_i he
    rw [List.isEmpty_iff] at he
    simp [he, List.dropWhile_cons, hl]
  · rfl

theorem matchPlaceholder_two_of_append (name t rem : List Char)
    (hname : isPlainName name = true) (ht : t ≠ [])
    (h : matchPlaceholder 2 name (t ++ placeholderChars name) = some rem) :
    ∃ rem1, matchPlaceholder 2 name t = some rem1 := by
  obtain ⟨hne, hch⟩ := isPlainName_facts name hname
  have hl : isJsSpace lbrace = false := by decide
  obtain ⟨a, name1, rfl⟩ : ∃ a name1, name = a :: name1 := by
    cases name with
    | nil => exact absurd rfl hne
    | cons a name1 => exact ⟨a, name1, rfl⟩
  have ha : lbrace ≠ a := fun e => (hch a (List.mem_cons_self _ _)).2.1 e.symm
  cases t with
  | nil => exact absurd rfl ht
  | cons c t1 =>
    by_cases hc : c = lbrace
    · subst hc
      cases t1 with
      | nil =>
        -- the match would have to start one character before the placeholder
        simp [matchPlaceholder, placeholderChars, expectChars, List.dropWhile_cons, hl,
          expectName, ha] at h
      | cons d t2 =>
        by_cases hd : d = lbrace
        · subst hd
          have hP : placeholderChars (a :: name1)
              = lbrace :: (lbrace :: ((a :: name1) ++ [rbrace, rbrace])) := rfl
          have hE : expectChars lbrace 2
              (lbrace :: lbrace :: t2 ++ placeholderChars (a :: name1))
              = some (t2 ++ placeholderChars (a :: name1)) :=
            (expectChars_eq_some _ _ _ _).2 rfl
          have hE1 : expectChars lbrace 2 (lbrace :: lbrace :: t2) = some t2 :=
            (expectChars_eq_some _ _ _ _).2 rfl
          unfold matchPlaceholder at h ⊢
          rw [hE] at h
          rw [hE1]
          simp only at h ⊢
          rw [hP, dropWhile_append_brace] at h
          cases h2 : expectName (a :: name1) (t2.dropWhile isJsSpace ++
              lbrace :: (lbrace :: ((a :: name1) ++ [rbrace, rbrace]))) with
          | none => rw [h2] at h; simp at h
          | some s2 =>
            rw [h2] at h
            simp only at h
            obtain ⟨s3, hs3, rfl⟩ := expectName_append_brace _ _ _ _
              (fun c hc => (hch c hc).2.1) h2
            rw [dropWhile_append_brace] at h
            obtain ⟨rem1, hr1, _⟩ := expectChars_rbrace_append_brace _ _ _ _ h
            exact ⟨rem1, by rw [hs3]; exact hr1⟩
        · simp [matchPlaceholder, expectChars, hd] at h
    · simp [matchPlaceholder, expectChars, hc] at h

theorem rdropWhile_append_of_not (a r : List Char) (c : Char) (hc : isJsSpace c = false) :
    (a ++ c :: r).rdropWhile isJsSpace = a ++ c :: r.rdropWhile isJsSpace := by
  induction r using List.reverseRecOn with
  | nil =>
    simpa using List.rdropWhile_concat_neg isJsSpace a c (by simp [hc])
  | append_singleton r x ih =>
    have e : a ++ c :: (r ++ [x]) = (a ++ c :: r) ++ [x] := by simp
    rw [e, List.rdropWhile_concat, List.rdropWhile_concat]
    split
    · exact ih
    · simp

theorem searchPlaceholder_rdropWhile (name u t rem : List Char)
    (hname : isPlainName name = true)
    (h : matchPlaceholder 2 name t = some rem) :
    searchPlaceholder 2 name ((u ++ t).rdropWhile isJsSpace) = true := by
  obtain ⟨w1, w2, hw1, hw2, rfl⟩ := eq_of_matchPlaceholder _ _ _ _ h
  have hr : isJsSpace rbrace = false := by decide
  have e : u ++ (List.replicate 2 lbrace ++ (w1 ++ (name ++ (w2 ++
        (List.replicate 2 rbrace ++ rem)))))
      = (u ++ (List.replicate 2 lbrace ++ (w1 ++ (name ++ (w2 ++ [rbrace]))))) ++
        rbrace :: rem := by
    simp [List.replicate]
  rw [e, rdropWhile_append_of_not _ _ _ hr]
  have e2 : (u ++ (List.replicate 2 lbrace ++ (w1 ++ (name ++ (w2 ++ [rbrace]))))) ++
        rbrace :: rem.rdropWhile isJsSpace
      = u ++ (List.replicate 2 lbrace ++ (w1 ++ (name ++ (w2 ++
        (List.replicate 2 rbrace ++ rem.rdropWhile isJsSpace))))) := by
    simp [List.replicate]
  rw [e2]
  exact searchPlaceholder_append _ _ _ _ (searchPlaceholder_of_match _ _ _ _
    (matchPlaceholder_of_eq 2 name w1 w2 _ (by decide) hname hw1 hw2))

theorem matchPlaceholder_placeholderChars (braces : Nat) (name rest : List Char)
    (hb : 0 < braces) (hname : isPlainName name = true) :
    matchPlaceholder braces name
      (List.replicate braces lbrace ++ (name ++ (List.replicate braces rbrace ++ rest)))
      = some rest := by
  simpa using matchPlaceholder_of_eq braces name [] [] rest hb hname (by simp) (by simp)

theorem replacePlaceholders_append_placeholder (name l : List Char)
    (hname : isPlainName name = true)
    (hno : ∀ u t, l = u ++ t → t ≠ [] →
      matchPlaceholder 2 name (t ++ placeholderChars name) = none) :
    ∀ fuel, l.length < fuel →
      replacePlaceholders 2 name fuel (l ++ placeholderChars name) = l ++ [' '] := by
  induction l with
  | nil =>
    intro fuel hf
    obtain ⟨f, rfl⟩ : ∃ f, fuel = f + 1 := ⟨fuel - 1, by simp at hf; omega⟩
    have hm : matchPlaceholder 2 name (lbrace :: (lbrace :: (name ++ [rbrace, rbrace])))
        = some [] :=
      matchPlaceholder_placeholderChars 2 name [] (by decide) hname
    have hnil : replacePlaceholders 2 name f [] = [] := by cases f <;> rfl
    show replacePlaceholders 2 name (f + 1) (lbrace :: (lbrace :: (name ++ [rbrace, rbrace])))
      = [' ']
    rw [replacePlaceholders, hm]
    simp only
    rw [hnil]
  | cons c l ih =>
    intro fuel hf
    obtain ⟨f, rfl⟩ : ∃ f, fuel = f + 1 := ⟨fuel - 1, by simp at hf; omega⟩
    have hm : matchPlaceholder 2 name (c :: (l ++ placeholderChars name)) = none :=
      hno [] (c :: l) rfl (by simp)
    show replacePlaceholders 2 name (f + 1) (c :: (l ++ placeholderChars name))
      = c :: (l ++ [' '])
    rw [replacePlaceholders, hm]
    simp only
    rw [ih (fun u t hut htn => hno (c :: u) t (by simp [hut]) htn) f (by simpa using hf)]

theorem normalize_append_placeholder (name v : List Char) (hname : isPlainName name = true) :
    trimSpaces (collapseSpaces false (v ++ placeholderChars name))
      = collapseSpaces true v ++ placeholderChars name := by
  obtain ⟨_, hch⟩ := isPlainName_facts name hname
  have hl : isJsSpace lbrace = false := by decide
  have hr : isJsSpace rbrace = false := by decide
  have hP : ∀ c ∈ placeholderChars name, isJsSpace c = false := by
    intro c hc
    simp only [placeholderChars, List.mem_append, List.mem_cons, List.mem_singleton,
      List.not_mem_nil, or_false] at hc
    rcases hc with ((rfl | rfl) | hc) | (rfl | rfl)
    · exact hl
    · exact hl
    · exact (hch c hc).1
    · exact hr
    · exact hr
  obtain ⟨f, hf⟩ := collapseSpaces_append false v (placeholderChars name)
  rw [hf, collapseSpaces_of_no_space f _ hP]
  unfold trimSpaces
  have e1 : placeholderChars name = lbrace :: (lbrace :: (name ++ [rbrace, rbrace])) := rfl
  have e2 : collapseSpaces true v ++ lbrace :: (lbrace :: (name ++ [rbrace, rbrace]))
      = (collapseSpaces true v ++ lbrace :: (lbrace :: (name ++ [rbrace]))) ++ [rbrace] := by
    simp
  rw [e1, dropWhile_append_brace, dropWhile_collapseSpaces_false, e2]
  exact List.rdropWhile_concat_neg _ _ _ (by simp [hr])

theorem searchPlaceholder_one_placeholder (name u : List Char)
    (hname : isPlainName name = true) :
    searchPlaceholder 1 name (u ++ placeholderChars name) = true := by
  have e : u ++ placeholderChars name
      = (u ++ [lbrace]) ++ (List.replicate 1 lbrace ++ (name ++
          (List.replicate 1 rbrace ++ [rbrace]))) := by
    simp [placeholderChars, List.replicate]
  rw [e]
  exact searchPlaceholder_append _ _ _ _ (searchPlaceholder_of_match _ _ _ _
    (matchPlaceholder_placeholderChars 1 name [rbrace] (by decide) hname))

/-! ## `setDataSource` twice -/

/-- C13, as the code has it: on the value `a{{city}}b` two calls with the name
`city` give `a b{{city}}`, which is not the original text up to whitespace
normalisation: the placeholder found at the start is replaced by a space and
then appended at the end. -/
theorem setDataSourceTwice_moves_placeholder :
    setDataSourceTwice { value := some "a\x7b\x7bcity\x7d\x7db" } "city"
      = some { value := some "a b\x7b\x7bcity\x7d\x7d" } ∧
    normalizeSpaces "a b\x7b\x7bcity\x7d\x7d" ≠ normalizeSpaces "a\x7b\x7bcity\x7d\x7db" := by
  decide

/-- C13, amended: the round trip on `value` without a placeholder at the
start.  For a plain data source name and an item on which `setDataSource`
works on `value`, when the normalised value does not contain the placeholder
`{{name}}` (with or without whitespace inside the braces), two calls of
`setDataSource` with that name do not throw, change no other field, and leave
a value that equals the original up to whitespace normalisation. -/
theorem setDataSourceTwice_value_round_trip (item : SourceItem) (data_source value : String)
    (hname : isPlainName data_source.data = true)
    (htarget : targetsSrc item = false)
    (hv : item.value = some value)
    (habsent : searchPlaceholder 2 data_source.data (normalizeSpaces value).data = false) :
    ∃ value2, setDataSourceTwice item data_source = some { item with value := some value2 } ∧
      normalizeSpaces value2 = normalizeSpaces value := by
  have hn : (normalizeSpaces value).data = trimSpaces (collapseSpaces false value.data) := rfl
  rw [hn] at habsent
  by_cases h1 : searchPlaceholder 1 data_source.data
      (trimSpaces (collapseSpaces false value.data)) = true
  · -- the single-brace pattern is found: the value is normalised, twice
    have hrep : ∀ fuel, replacePlaceholders 2 data_source.data fuel
        (trimSpaces (collapseSpaces false value.data))
        = trimSpaces (collapseSpaces false value.data) :=
      fun fuel => replacePlaceholders_of_no_match _ _ _ _ habsent
    have hfirst : setDataSource item data_source
        = some { item with value := some (normalizeSpaces value) } := by
      unfold setDataSource
      simp only [htarget, hv, hn, h1, hrep, Bool.false_eq_true, if_false, if_true]
      rfl
    have hsecond : setDataSource { item with value := some (normalizeSpaces value) } data_source
        = some { item with value := some (normalizeSpaces value) } := by
      have ht2 : targetsSrc { item with value := some (normalizeSpaces value) } = false :=
        htarget
      have hn2 : (normalizeSpaces (normalizeSpaces value)).data
          = trimSpaces (collapseSpaces false value.data) := normalize_idempotent value.data
      unfold setDataSource
      simp only [ht2, hn2, h1, hrep, Bool.false_eq_true, if_false, if_true]
      rfl
    refine ⟨normalizeSpaces value, ?_, ?_⟩
    · unfold setDataSourceTwice
      rw [hfirst]
      exact hsecond
    · exact congrArg String.mk (normalize_idempotent value.data)
  · -- no pattern is found: the placeholder is appended and then removed
    have hfirst : setDataSource item data_source
        = some { item with value := some (value ++ placeholderText data_source) } := by
      unfold setDataSource
      simp only [htarget, hv, hn, h1, Bool.false_eq_true, if_false]
    have hd : (value ++ placeholderText data_source).data
        = value.data ++ placeholderChars data_source.data := by
      rw [String.data_append]
      rfl
    have hn2 : (normalizeSpaces (value ++ placeholderText data_source)).data
        = collapseSpaces true value.data ++ placeholderChars data_source.data := by
      show trimSpaces (collapseSpaces false (value ++ placeholderText data_source).data) = _
      rw [hd]
      exact normalize_append_placeholder _ _ hname
    have hno : ∀ u t, collapseSpaces true value.data = u ++ t → t ≠ [] →
        matchPlaceholder 2 data_source.data (t ++ placeholderChars data_source.data)
          = none := by
      intro u t hut htn
      cases hm : matchPlaceholder 2 data_source.data
          (t ++ placeholderChars data_source.data) with
      | none => rfl
      | some rem =>
        obtain ⟨rem1, hm1⟩ := matchPlaceholder_two_of_append _ _ _ hname htn hm
        have := searchPlaceholder_rdropWhile _ u t rem1 hname hm1
        rw [← hut, ← trimSpaces_collapseSpaces, habsent] at this
        exact absurd this (by simp)
    have hrep := replacePlaceholders_append_placeholder data_source.data
      (collapseSpaces true value.data) hname hno
      (collapseSpaces true value.data ++ placeholderChars data_source.data).length
      (by simp [placeholderChars])
    have hsecond : setDataSource
        { item with value := some (value ++ placeholderText data_source) } data_source
        = some { item with
            value := some (String.mk (collapseSpaces true value.data ++ [' '])) } := by
      have ht2 : targetsSrc { item with value := some (value ++ placeholderText data_source) }
          = false := htarget
      unfold setDataSource
      simp only [ht2, hn2, searchPlaceholder_one_placeholder _ _ hname, hrep,
        Bool.false_eq_true, if_false, if_true]
    refine ⟨String.mk (collapseSpaces true value.data ++ [' ']), ?_, ?_⟩
    · unfold setDataSourceTwice
      rw [hfirst]
      exact hsecond
    · exact congrArg String.mk (normalize_append_space value.data)

/-- C13 amended, at the value `abc` and the name `city`. -/
theorem setDataSourceTwice_value_round_trip_witness :
    isPlainName "city".data = true ∧
    searchPlaceholder 2 "city".data (normalizeSpaces "abc").data = false ∧
    ∃ value2, setDataSourceTwice { value := some "abc" } "city"
        = some { ({ value := some "abc" } : SourceItem) with value := some value2 } ∧
      normalizeSpaces value2 = normalizeSpaces "abc" :=
  ⟨by decide, by decide,
   setDataSourceTwice_value_round_trip { value := some "abc" } "city" "abc"
     (by decide) (by decide) rfl (by decide)⟩

/-! ## The slider in the returned lists -/

theorem sliderRange_eq_some (aux : AuxAttributes) (range : String)
    (h : sliderRange aux = some range) :
    ∃ lo hi, aux.min = some lo ∧ aux.max = some hi ∧
      range = (lo.text ++ " - ") ++ hi.text := by
  unfold sliderRange at h
  split at h
  · rename_i lo hi hlo hhi
    simp only [Option.some.injEq] at h
    exact ⟨lo, hi, hlo, hhi, h.symm⟩
  · simp at h

theorem retrieveItemsBody_items (question : Item) (task_worker : List TaskWorker)
    (st st1 : LoopState ReviewItem)
    (h : retrieveItemsBody question task_worker st = some st1) :
    st1.items = st.items ∨
    ∃ x, st1.items = st.items ++ [x] ∧ x.type = question.type ∧
      (question.type = "slider" → carriesRange question x.question x.type x.range) := by
  unfold retrieveItemsBody at h
  split_ifs at h with h1 h2 h3 h4 h5
  · split at h
    · simp at h
    · simp only [Option.some.injEq] at h
      subst h
      refine Or.inr ⟨_, rfl, rfl, ?_⟩
      intro hs
      simp [hs, isDisplayType] at h1
  · split at h
    · simp only [Option.some.injEq] at h
      subst h
      refine Or.inr ⟨_, rfl, rfl, ?_⟩
      intro hs
      rcases h2 with h2 | h2 <;> simp [hs] at h2
    · simp at h
  · cases hr : resultAt task_worker st.index with
    | none => simp [hr] at h
    | some answers =>
      simp only [hr] at h
      cases hl : jsLength answers with
      | none => simp [hl] at h
      | some len =>
        simp only [hl] at h
        cases hc : checkboxLoop answers (len.getD 0) 0 "" with
        | none => simp [hc] at h
        | some answer =>
          simp only [hc] at h
          cases hq : question.aux_attributes.question with
          | none => simp [hq] at h
          | some q =>
            simp only [hq, Option.some.injEq] at h
            subst h
            refine Or.inr ⟨_, rfl, rfl, ?_⟩
            intro hs
            simp [hs] at h3
  · split at h
    · simp only [Option.some.injEq] at h
      subst h
      refine Or.inr ⟨_, rfl, rfl, ?_⟩
      intro hs
      simp [hs] at h4
    · simp at h
  · split at h
    · rename_i range q r hrange hq hr
      simp only [Option.some.injEq] at h
      subst h
      obtain ⟨lo, hi, hlo, hhi, rfl⟩ := sliderRange_eq_some _ _ hrange
      refine Or.inr ⟨_, rfl, rfl, ?_⟩
      intro _
      exact ⟨h5, hq, lo, hi, hlo, hhi, rfl⟩
    · simp at h
  · simp only [Option.some.injEq] at h
    subst h
    exact Or.inl rfl

theorem retrieveItemsLoop_slider_items (questions : List Item) (task_worker : List TaskWorker)
    (fuel : Nat) :
    ∀ (st : LoopState ReviewItem) (items : List ReviewItem),
      retrieveItemsLoop questions task_worker fuel st = .returned items →
      (∀ x ∈ st.items, x.type = "slider" →
        ∃ q ∈ questions, q.type = "slider" ∧ carriesRange q x.question x.type x.range) →
      ∀ x ∈ items, x.type = "slider" →
        ∃ q ∈ questions, q.type = "slider" ∧ carriesRange q x.question x.type x.range := by
  induction fuel with
  | zero =>
    intro st items h
    simp [retrieveItemsLoop] at h
  | succ fuel ih =>
    intro st items h hst
    simp only [retrieveItemsLoop] at h
    cases hq : questions[st.i]? with
    | none =>
      simp only [hq, Outcome.returned.injEq] at h
      subst h
      exact hst
    | some question =>
      simp only [hq] at h
      cases hb : retrieveItemsBody question task_worker st with
      | none => simp [hb] at h
      | some st1 =>
        simp only [hb] at h
        apply ih _ items h
        intro x hx hxs
        simp only at hx
        rcases retrieveItemsBody_items _ _ _ _ hb with he | ⟨y, hy, hyt, hyr⟩
        · rw [he] at hx
          exact hst x hx hxs
        · rw [hy, List.mem_append, List.mem_singleton] at hx
          rcases hx with hx | rfl
          · exact hst x hx hxs
          · have hqt : question.type = "slider" := by rw [← hyt]; exact hxs
            obtain ⟨hlt, hget⟩ := List.getElem?_eq_some.1 hq
            exact ⟨question, hget ▸ List.getElem_mem hlt, hqt, hyr hqt⟩

theorem retrieveItemsLoop_slider_at (questions : List Item) (task_worker : List TaskWorker)
    (fuel : Nat) :
    ∀ (pre rest : List Item) (st : LoopState ReviewItem) (items : List ReviewItem),
      questions = pre ++ rest → st.i = pre.length → (∀ q ∈ rest, q.type ≠ "checkbox") →
      retrieveItemsLoop questions task_worker fuel st = .returned items →
      ∃ suffix, items = st.items ++ suffix ∧
        ∀ (p : Nat) (q : Item), rest[p]? = some q → q.type = "slider" →
          ∃ item, suffix[emittedCount (rest.take p)]? = some item ∧
            carriesRange q item.question item.type item.range := by
  induction fuel with
  | zero =>
    intro pre rest st items _ _ _ h
    simp [retrieveItemsLoop] at h
  | succ fuel ih =>
    intro pre rest st items hq hi hno h
    simp only [retrieveItemsLoop, hq, getElem?_append_at_length _ _ _ hi] at h
    cases rest with
    | nil =>
      simp only [List.head?_nil, Outcome.returned.injEq] at h
      exact ⟨[], by simp [h], by simp⟩
    | cons q0 rest =>
      simp only [List.head?_cons] at h
      cases hb : retrieveItemsBody q0 task_worker st with
      | none => simp [hb] at h
      | some st1 =>
        simp only [hb] at h
        rw [← hq] at h
        have h1 := retrieveItemsBody_i _ _ _ _ (hno q0 (List.mem_cons_self _ _)) hb
        obtain ⟨suffix1, hs1, hp1⟩ := ih (pre ++ [q0]) rest { st1 with i := st1.i + 1 } items
          (by simp [hq]) (by simp [h1, hi]) (fun q hm => hno q (List.mem_cons_of_mem _ hm)) h
        simp only at hs1 hp1
        by_cases hd : isDisplayType q0.type = true
        · -- a display question: one item, never a slider
          obtain ⟨x, hx, _⟩ := retrieveItemsBody_display _ _ _ _ hd hb
          refine ⟨x :: suffix1, by simp [hs1, hx], ?_⟩
          intro p q hpq ht
          cases p with
          | zero =>
            simp only [List.getElem?_cons_zero, Option.some.injEq] at hpq
            subst hpq
            simp [ht, isDisplayType] at hd
          | succ p =>
            simp only [List.getElem?_cons_succ] at hpq
            obtain ⟨item, e1, e2⟩ := hp1 p q hpq ht
            exact ⟨item, by
              simpa [emittedCount, List.take_succ_cons, List.countP_cons, hd] using e1, e2⟩
        · by_cases ha : isAnswerType q0.type = true
          · -- an answer question other than a checkbox: one item
            have ht0 : q0.type = "radio" ∨ q0.type = "select_list" ∨ q0.type = "text" ∨
                q0.type = "slider" := by
              have := (isAnswerType_iff _).1 ha
              have hc := hno q0 (List.mem_cons_self _ _)
              tauto
            obtain ⟨x, r0, hx, _, _, _, _⟩ := retrieveItemsBody_answer _ _ _ _ ht0 hb
            refine ⟨x :: suffix1, by simp [hs1, hx], ?_⟩
            intro p q hpq ht
            cases p with
            | zero =>
              simp only [List.getElem?_cons_zero, Option.some.injEq] at hpq
              subst hpq
              rcases retrieveItemsBody_items _ _ _ _ hb with he | ⟨y, hy, _, hyr⟩
              · rw [he] at hx
                have := congrArg List.length hx
                simp at this
              · rw [hy] at hx
                have hxy : y = x := by simpa using List.append_cancel_left hx
                subst hxy
                exact ⟨y, by simp [emittedCount], hyr ht⟩
            | succ p =>
              simp only [List.getElem?_cons_succ] at hpq
              obtain ⟨item, e1, e2⟩ := hp1 p q hpq ht
              exact ⟨item, by
                simpa [emittedCount, List.take_succ_cons, List.countP_cons, hd, ha] using e1,
                e2⟩
          · -- an unrecognised type: nothing is pushed
            simp only [Bool.not_eq_true] at hd ha
            rw [retrieveItemsBody_other _ _ _ hd ha, Option.some.injEq] at hb
            subst hb
            refine ⟨suffix1, hs1, ?_⟩
            intro p q hpq ht
            cases p with
            | zero =>
              simp only [List.getElem?_cons_zero, Option.some.injEq] at hpq
              subst hpq
              have : isAnswerType q0.type = true := by
                rw [isAnswerType_iff]; tauto
              simp [ha] at this
            | succ p =>
              simp only [List.getElem?_cons_succ] at hpq
              obtain ⟨item, e1, e2⟩ := hp1 p q hpq ht
              exact ⟨item, by
                simpa [emittedCount, List.take_succ_cons, List.countP_cons, hd, ha] using e1,
                e2⟩

theorem retrieveItemsSameTaskLoop_ne_running (questions : List Item)
    (task_worker_one task_worker_two : List TaskWorker) (rest : List Item) :
    ∀ (pre : List Item) (fuel : Nat) (st : LoopState ReviewItemSameTask),
      questions = pre ++ rest → st.i = pre.length → (∀ q ∈ rest, q.type ≠ "checkbox") →
      rest.length < fuel →
      retrieveItemsSameTaskLoop questions task_worker_one task_worker_two fuel st
        ≠ .running := by
  induction rest with
  | nil =>
    intro pre fuel st hq hi _ hf
    obtain ⟨f, rfl⟩ : ∃ f, fuel = f + 1 := ⟨fuel - 1, by simp at hf; omega⟩
    have h0 := getElem?_append_at_length pre [] _ hi
    rw [← hq] at h0
    simp [retrieveItemsSameTaskLoop, h0]
  | cons q0 rest ih =>
    intro pre fuel st hq hi hno hf
    obtain ⟨f, rfl⟩ : ∃ f, fuel = f + 1 := ⟨fuel - 1, by simp at hf; omega⟩
    simp only [retrieveItemsSameTaskLoop, hq, getElem?_append_at_length _ _ _ hi,
      List.head?_cons]
    cases hb : retrieveItemsSameTaskBody q0 task_worker_one task_worker_two st with
    | none => simp
    | some st1 =>
      simp only
      have h1 := retrieveItemsSameTaskBody_i _ _ _ _ _ (hno q0 (List.mem_cons_self _ _)) hb
      rw [← hq]
      apply ih (pre ++ [q0]) f
      · simp [hq]
      · simp [h1, hi]
      · exact fun q hm => hno q (List.mem_cons_of_mem _ hm)
      · simpa using hf

/-- C17: the slider items of the returned lists.  In every list that
`retrieveItems` or `retrieveItemsSameTask` returns, each item of type
`slider` was pushed for a slider question of the template and carries that
question's text and the range made of the text of `aux_attributes.min`,
`" - "` and the text of `aux_attributes.max`.  For a template without
checkbox questions both traversals end within `questions.length + 1` loop
tests, and when they return, the item pushed for the slider question at index
`p` stands at the place of that question among the pushed items and carries
its text, the type `slider` and its range. -/
theorem slider_items_carry_range (questions : List Item)
    (task_worker task_worker_two : List TaskWorker) :
    (∀ (fuel : Nat) (items : List ReviewItem),
      retrieveItems fuel questions task_worker = .returned items →
      ∀ item ∈ items, item.type = "slider" →
        ∃ q ∈ questions, q.type = "slider" ∧
          carriesRange q item.question item.type item.range) ∧
    (∀ (fuel : Nat) (items : List ReviewItemSameTask),
      retrieveItemsSameTask fuel questions task_worker task_worker_two = .returned items →
      ∀ item ∈ items, item.type = "slider" →
        ∃ q ∈ questions, q.type = "slider" ∧
          carriesRange q item.question item.type item.range) ∧
    ((∀ q ∈ questions, q.type ≠ "checkbox") →
      (∀ fuel, questions.length < fuel →
        retrieveItems fuel questions task_worker ≠ .running ∧
        retrieveItemsSameTask fuel questions task_worker task_worker_two ≠ .running) ∧
      (∀ (fuel : Nat) (items : List ReviewItem),
        retrieveItems fuel questions task_worker = .returned items →
        ∀ (p : Nat) (q : Item), questions[p]? = some q → q.type = "slider" →
          ∃ item, items[emittedCount (questions.take p)]? = some item ∧
            carriesRange q item.question item.type item.range) ∧
      (∀ (fuel : Nat) (items : List ReviewItemSameTask),
        retrieveItemsSameTask fuel questions task_worker task_worker_two = .returned items →
        ∀ (p : Nat) (q : Item), questions[p]? = some q → q.type = "slider" →
          ∃ item, items[emittedCount (questions.take p)]? = some item ∧
            carriesRange q item.question item.type item.range)) := by
  have hall : ∀ (fuel : Nat) (items : List ReviewItem),
      retrieveItems fuel questions task_worker = .returned items →
      ∀ item ∈ items, item.type = "slider" →
        ∃ q ∈ questions, q.type = "slider" ∧
          carriesRange q item.question item.type item.range := by
    intro fuel items h
    exact retrieveItemsLoop_slider_items questions task_worker fuel _ items h (by simp)
  have hat : (∀ q ∈ questions, q.type ≠ "checkbox") →
      ∀ (fuel : Nat) (items : List ReviewItem),
        retrieveItems fuel questions task_worker = .returned items →
        ∀ (p : Nat) (q : Item), questions[p]? = some q → q.type = "slider" →
          ∃ item, items[emittedCount (questions.take p)]? = some item ∧
            carriesRange q item.question item.type item.range := by
    intro hno fuel items h p q hpq ht
    obtain ⟨suffix, hs, hp⟩ := retrieveItemsLoop_slider_at questions task_worker fuel []
      questions { i := 0, index := 0, items := [] } items rfl rfl hno h
    simp only [List.nil_append] at hs
    subst hs
    exact hp p q hpq ht
  refine ⟨hall, ?_, ?_⟩
  · intro fuel items h item hitem hts
    have h1 := retrieveItemsLoop_of_sameTask _ _ _ _ _ _ h
    obtain ⟨q, hq, hqt, hc⟩ := hall fuel _ h1 (workerOneView item)
      (List.mem_map_of_mem _ hitem) hts
    exact ⟨q, hq, hqt, hc⟩
  · intro hno
    refine ⟨?_, hat hno, ?_⟩
    · intro fuel hf
      exact ⟨retrieveItemsLoop_ne_running questions task_worker questions [] fuel _ rfl rfl
          hno hf,
        retrieveItemsSameTaskLoop_ne_running questions task_worker task_worker_two questions
          [] fuel _ rfl rfl hno hf⟩
    · intro fuel items h p q hpq ht
      have h1 := retrieveItemsLoop_of_sameTask _ _ _ _ _ _ h
      obtain ⟨item, hi, hc⟩ := hat hno fuel _ h1 p q hpq ht
      rw [List.getElem?_map] at hi
      cases hx : items[emittedCount (questions.take p)]? with
      | none => rw [hx] at hi; simp at hi
      | some x =>
        rw [hx] at hi
        simp only [Option.map_some', Option.some.injEq] at hi
        subst hi
        exact ⟨x, rfl, hc⟩

/-- C17, at the text question and the slider from 1 to 5: the slider item is
the second of the returned list and has the range `1 - 5`. -/
theorem slider_items_carry_range_witness :
    (∀ q ∈ textSliderQuestions, q.type ≠ "checkbox") ∧
    retrieveItems 3 textSliderQuestions textSliderWorker = .returned textSliderItems ∧
    textSliderItems[1]?.map (fun x => x.range) = some (some "1 - 5") ∧
    ∃ item, textSliderItems[emittedCount (textSliderQuestions.take 1)]? = some item ∧
      carriesRange sliderSample item.question item.type item.range :=
  ⟨by decide, by decide, by decide,
   ((slider_items_carry_range textSliderQuestions textSliderWorker textSliderWorker).2.2
      (by decide)).2.1 3 textSliderItems (by decide) 1 sliderSample (by decide) rfl⟩

end CybrosX
